import Mathlib

/-! List-item service: validation and CRUD handlers.

A shallow embedding of the four Go programs under `Backend/Go`
(`listMongoDB/listGoFiber`, `listMongoDB/listGoGin`, `listPostgreSQL/listGoFiber`,
`listPostgreSQL/listGoGin`).  Each program is one `main.go` with the same five handlers and the
same `ValidateListField`.

The Go standard library functions the programs call (`strings.TrimSpace`, `len`,
`strconv.ParseUint`) are embedded below from the standard library's own code; a Go string is a
sequence of bytes, a rune is a natural number, and `uint` has 64 bits.

The stores are external to the programs.  Each is embedded as the data it holds together with the
calls the handlers make on it (`DB.First`, `DB.Create`, `DB.Save`, `DB.Delete` of gorm on
PostgreSQL; `FindByID`, `Create`, `Update`, `Delete` of mgm on MongoDB), following the documented
behaviour of these calls and of the column types the models declare.  Every call takes a
`Fault`, by which the environment can make it fail; the calls of mgm that read the clock take the
time they read.  A handler is a function from the store, the faults, the path parameter and the request body to
the response and the store after the request.  `GetListItems` and `main` are not embedded.
-/

set_option autoImplicit false

/-- Results of fallible calls can be compared. -/
instance instDecidableEqExcept {ε α : Type} [DecidableEq ε] [DecidableEq α] :
    DecidableEq (Except ε α)
  | .ok a, .ok b => if h : a = b then isTrue (by rw [h]) else isFalse (by simpa using h)
  | .error a, .error b => if h : a = b then isTrue (by rw [h]) else isFalse (by simpa using h)
  | .ok _, .error _ => isFalse (by simp)
  | .error _, .ok _ => isFalse (by simp)

/-! ## Go strings -/

/-- A Go string: an immutable sequence of bytes (not necessarily valid UTF-8). -/
abbrev GoString := List UInt8

/-- The builtin `len` on a string: the number of bytes. -/
def len (s : GoString) : Nat := s.length

/-- The byte `s[i]`, for an index in range. -/
def byteAt (s : GoString) (i : Nat) : Nat := (s.getD i 0).toNat

/-- The slice expression `s[lo:hi]`. -/
def substr (s : GoString) (lo hi : Nat) : GoString := (s.take hi).drop lo

/-- The slice expression `s[lo:]`. -/
def sliceFrom (s : GoString) (lo : Nat) : GoString := s.drop lo

namespace utf8

/-- The "error" rune, U+FFFD. -/
def RuneError : Nat := 0xFFFD

/-- Bytes below `RuneSelf` are runes of their own. -/
def RuneSelf : Nat := 0x80

/-- Maximum number of bytes of an encoded rune. -/
def UTFMax : Nat := 4

/-- The table `first`: information about the first byte of an encoding.  `0xF0` is ASCII, `0xF1`
is an invalid first byte; otherwise the low bits are the size and the high bits index
`acceptRanges`. -/
def first (b : Nat) : Nat :=
  if b < 0x80 then 0xF0
  else if b < 0xC2 then 0xF1
  else if b < 0xE0 then 0x02
  else if b = 0xE0 then 0x13
  else if b < 0xED then 0x03
  else if b = 0xED then 0x23
  else if b < 0xF0 then 0x03
  else if b = 0xF0 then 0x34
  else if b < 0xF4 then 0x04
  else if b = 0xF4 then 0x44
  else 0xF1

/-- The table `acceptRanges`: the range of valid second bytes. -/
def acceptRanges (i : Nat) : Nat × Nat :=
  match i with
  | 0 => (0x80, 0xBF)
  | 1 => (0xA0, 0xBF)
  | 2 => (0x80, 0x9F)
  | 3 => (0x90, 0xBF)
  | 4 => (0x80, 0x8F)
  | _ => (0, 0)

/-- `utf8.DecodeRuneInString`: the first rune of `s` and its width in bytes; `(RuneError, 0)` on
the empty string and `(RuneError, 1)` on an invalid encoding. -/
def DecodeRuneInString (s : GoString) : Nat × Nat :=
  let n := len s
  if n < 1 then (RuneError, 0)
  else
    let s0 := byteAt s 0
    let x := first s0
    if x ≥ 0xF0 then
      if x = 0xF1 then (RuneError, 1) else (s0, 1)
    else
      let sz := x % 8
      let accept := acceptRanges (x / 16)
      if n < sz then (RuneError, 1)
      else
        let s1 := byteAt s 1
        if s1 < accept.1 ∨ accept.2 < s1 then (RuneError, 1)
        else if sz ≤ 2 then ((s0 % 32) * 64 + s1 % 64, 2)
        else
          let s2 := byteAt s 2
          if s2 < 0x80 ∨ 0xBF < s2 then (RuneError, 1)
          else if sz ≤ 3 then ((s0 % 16) * 4096 + (s1 % 64) * 64 + s2 % 64, 3)
          else
            let s3 := byteAt s 3
            if s3 < 0x80 ∨ 0xBF < s3 then (RuneError, 1)
            else ((s0 % 8) * 262144 + (s1 % 64) * 4096 + (s2 % 64) * 64 + s3 % 64, 4)

/-- `utf8.RuneStart`: the byte is not a continuation byte. -/
def RuneStart (b : Nat) : Bool := decide (b / 64 ≠ 2)

/-- The backwards scan of `DecodeLastRuneInString`:
`for start--; start >= lim; start-- { if RuneStart(s[start]) { break } }`, entered after the
initial `start--`. -/
def scanStart (s : GoString) (lim : Int) : Nat → Int → Int
  | 0, start => start
  | fuel + 1, start =>
    if start ≥ lim then
      if RuneStart (byteAt s start.toNat) then start else scanStart s lim fuel (start - 1)
    else start

/-- `utf8.DecodeLastRuneInString`: the last rune of `s` and its width in bytes. -/
def DecodeLastRuneInString (s : GoString) : Nat × Nat :=
  let last := len s
  if last = 0 then (RuneError, 0)
  else
    let start := last - 1
    let r := byteAt s start
    if r < RuneSelf then (r, 1)
    else
      let lim : Int := if (last : Int) - UTFMax < 0 then 0 else (last : Int) - UTFMax
      let start := scanStart s lim UTFMax ((start : Int) - 1)
      let start := if start < 0 then 0 else start
      let (r, size) := DecodeRuneInString (substr s start.toNat last)
      if start.toNat + size ≠ last then (RuneError, 1) else (r, size)

/-- The loop `for range s` counting its iterations, from byte offset `i`. -/
def runeCountFrom (s : GoString) : Nat → Nat → Nat
  | 0, _ => 0
  | fuel + 1, i =>
    if i < len s then
      1 + runeCountFrom s fuel (i + (DecodeRuneInString (sliceFrom s i)).2)
    else 0

/-- `utf8.RuneCountInString`: the number of runes in `s`; an invalid byte counts as one rune of
width one. -/
def RuneCountInString (s : GoString) : Nat := runeCountFrom s (len s + 1) 0

/-- The loop of `utf8.ValidString` from byte offset `i`: no rune decodes as an error of width
one. -/
def validFrom (s : GoString) : Nat → Nat → Bool
  | 0, _ => true
  | fuel + 1, i =>
    if i < len s then
      let (r, w) := DecodeRuneInString (sliceFrom s i)
      if r = RuneError ∧ w = 1 then false else validFrom s fuel (i + w)
    else true

/-- `utf8.ValidString`: the string consists entirely of valid UTF-8-encoded runes. -/
def ValidString (s : GoString) : Bool := validFrom s (len s + 1) 0

/-- The byte offset at which the rune number `n` (counted from `i`) of `s` starts, or `len(s)`
when there are fewer runes. -/
def runeOffset (s : GoString) : Nat → Nat → Nat
  | 0, i => i
  | n + 1, i =>
    if i < len s then runeOffset s n (i + (DecodeRuneInString (sliceFrom s i)).2) else i

/-- `utf8.AppendRune` on an empty buffer: the UTF-8 encoding of a rune; a rune out of range and a
surrogate half are encoded as `RuneError`. -/
def EncodeRune (r : Nat) : GoString :=
  if r ≤ 0x7F then [UInt8.ofNat r]
  else if r ≤ 0x7FF then [UInt8.ofNat (0xC0 + r / 64), UInt8.ofNat (0x80 + r % 64)]
  else if r > 0x10FFFF ∨ (0xD800 ≤ r ∧ r ≤ 0xDFFF) then [0xEF, 0xBF, 0xBD]
  else if r ≤ 0xFFFF then
    [UInt8.ofNat (0xE0 + r / 4096), UInt8.ofNat (0x80 + r / 64 % 64), UInt8.ofNat (0x80 + r % 64)]
  else
    [UInt8.ofNat (0xF0 + r / 262144), UInt8.ofNat (0x80 + r / 4096 % 64),
      UInt8.ofNat (0x80 + r / 64 % 64), UInt8.ofNat (0x80 + r % 64)]

/-- The string `string(runes)`: the encodings of the runes one after the other. -/
def encode (runes : List Nat) : GoString := runes.flatMap EncodeRune

end utf8

namespace unicode

/-- `unicode.IsSpace`: the Latin-1 spaces, and outside Latin-1 the code points of the
`White_Space` table. -/
def IsSpace (r : Nat) : Bool :=
  if r ≤ 0xFF then
    r = 0x09 || r = 0x0A || r = 0x0B || r = 0x0C || r = 0x0D || r = 0x20 || r = 0x85 || r = 0xA0
  else
    r = 0x1680 || (0x2000 ≤ r && r ≤ 0x200A) || r = 0x2028 || r = 0x2029 || r = 0x202F
      || r = 0x205F || r = 0x3000

end unicode

namespace strings

/-- The table `asciiSpace`. -/
def asciiSpace (c : Nat) : Bool :=
  c = 0x09 || c = 0x0A || c = 0x0B || c = 0x0C || c = 0x0D || c = 0x20

/-- The loop of `indexFunc`, `for i, r := range s { if f(r) == truth { return i } }`, from byte
offset `i`; `-1` when the loop runs out. -/
def indexFuncFrom (s : GoString) (f : Nat → Bool) (truth : Bool) : Nat → Nat → Int
  | 0, _ => -1
  | fuel + 1, i =>
    if i < len s then
      let (r, w) := utf8.DecodeRuneInString (sliceFrom s i)
      if f r = truth then (i : Int) else indexFuncFrom s f truth fuel (i + w)
    else -1

/-- `strings.indexFunc`. -/
def indexFunc (s : GoString) (f : Nat → Bool) (truth : Bool) : Int :=
  indexFuncFrom s f truth (len s + 1) 0

/-- The loop of `lastIndexFunc`, `for i := len(s); i > 0; { ... }`, from `i`. -/
def lastIndexFuncFrom (s : GoString) (f : Nat → Bool) (truth : Bool) : Nat → Nat → Int
  | 0, _ => -1
  | fuel + 1, i =>
    if i > 0 then
      let (r, size) := utf8.DecodeLastRuneInString (substr s 0 i)
      let i := i - size
      if f r = truth then (i : Int) else lastIndexFuncFrom s f truth fuel i
    else -1

/-- `strings.lastIndexFunc`. -/
def lastIndexFunc (s : GoString) (f : Nat → Bool) (truth : Bool) : Int :=
  lastIndexFuncFrom s f truth (len s + 1) (len s)

/-- `strings.TrimLeftFunc`. -/
def TrimLeftFunc (s : GoString) (f : Nat → Bool) : GoString :=
  let i := indexFunc s f false
  if i = -1 then [] else sliceFrom s i.toNat

/-- `strings.TrimRightFunc`. -/
def TrimRightFunc (s : GoString) (f : Nat → Bool) : GoString :=
  let i := lastIndexFunc s f false
  if i ≥ 0 ∧ byteAt s i.toNat ≥ utf8.RuneSelf then
    let (_, wid) := utf8.DecodeRuneInString (sliceFrom s i.toNat)
    substr s 0 (i.toNat + wid)
  else substr s 0 (i + 1).toNat

/-- `strings.TrimFunc`. -/
def TrimFunc (s : GoString) (f : Nat → Bool) : GoString :=
  TrimRightFunc (TrimLeftFunc s f) f

/-- Outcome of one of the two ASCII scans of `TrimSpace`. -/
inductive Scan where
  /-- The scan met a byte `>= utf8.RuneSelf` at this position. -/
  | nonASCII (pos : Nat)
  /-- The scan stopped at this position, at an ASCII non-space byte or at the end. -/
  | stop (pos : Nat)
deriving DecidableEq, Repr

/-- First loop of `TrimSpace`: `for ; start < len(s); start++`. -/
def scanLeft (s : GoString) : Nat → Nat → Scan
  | 0, start => .stop start
  | fuel + 1, start =>
    if start < len s then
      let c := byteAt s start
      if c ≥ utf8.RuneSelf then .nonASCII start
      else if asciiSpace c = false then .stop start
      else scanLeft s fuel (start + 1)
    else .stop start

/-- Second loop of `TrimSpace`: `for ; stop > start; stop--`. -/
def scanRight (s : GoString) (start : Nat) : Nat → Nat → Scan
  | 0, stop => .stop stop
  | fuel + 1, stop =>
    if stop > start then
      let c := byteAt s (stop - 1)
      if c ≥ utf8.RuneSelf then .nonASCII stop
      else if asciiSpace c = false then .stop stop
      else scanRight s start fuel (stop - 1)
    else .stop stop

/-- `strings.TrimSpace`: the string without its leading and trailing white space, as defined by
Unicode.  ASCII is scanned directly; at the first non-ASCII byte the rest goes through
`TrimFunc` or `TrimRightFunc` with `unicode.IsSpace`. -/
def TrimSpace (s : GoString) : GoString :=
  match scanLeft s (len s + 1) 0 with
  | .nonASCII start => TrimFunc (sliceFrom s start) unicode.IsSpace
  | .stop start =>
    match scanRight s start (len s + 1) (len s) with
    | .nonASCII stop => TrimRightFunc (substr s start stop) unicode.IsSpace
    | .stop stop => substr s start stop

end strings

namespace strconv

/-- The errors of `strconv`: `ErrSyntax` and `ErrRange`. -/
inductive NumError where
  /-- The string is not the text of a number: `invalid syntax`. -/
  | invalid
  /-- The number does not fit the requested size: `value out of range`. -/
  | range
deriving DecidableEq, Repr

/-- The digit loop of `ParseUint` in base 10, `n` being a `uint64` and `maxVal` the largest value
of the requested size.  A byte that is not a decimal digit is a syntax error (a letter gives a
digit value `>= base`). -/
def parseDigits (maxVal : Nat) : GoString → Nat → Except NumError Nat
  | [], n => .ok n
  | c :: rest, n =>
    if 0x30 ≤ c.toNat ∧ c.toNat ≤ 0x39 then
      let d := c.toNat - 0x30
      if n ≥ (2 ^ 64 - 1) / 10 + 1 then .error .range
      else
        let n := n * 10 % 2 ^ 64
        let n1 := (n + d) % 2 ^ 64
        if n1 < n ∨ n1 > maxVal then .error .range
        else parseDigits maxVal rest n1
    else .error .invalid

/-- `strconv.ParseUint(s, 10, bitSize)` for `1 <= bitSize <= 64`. -/
def ParseUint (s : GoString) (bitSize : Nat) : Except NumError Nat :=
  if s = [] then .error .invalid
  else parseDigits (2 ^ bitSize - 1) s 0

/-- The digit loop of `formatBits` in base 10: the decimal digits of `u` are put in front of
`acc`, the last digit first. -/
def formatBits : Nat → Nat → GoString → GoString
  | 0, _, acc => acc
  | fuel + 1, u, acc =>
    if u < 10 then UInt8.ofNat (0x30 + u) :: acc
    else formatBits fuel (u / 10) (UInt8.ofNat (0x30 + u % 10) :: acc)

/-- `strconv.FormatUint(i, 10)` for a `uint64`, which has at most 20 digits: the text of `i` in
a JSON response. -/
def FormatUint (i : Nat) : GoString := formatBits 20 i []

end strconv

/-! ## Requests and responses -/

namespace json

/-- A JSON value as far as the binders of the handlers tell values apart. -/
inductive Value where
  /-- The literal `null`. -/
  | null
  /-- A number written as an integer, without fraction or exponent. -/
  | number (n : Int)
  /-- A string, given by its decoded bytes. -/
  | string (s : GoString)
  /-- Any other value: a boolean, a number with fraction or exponent, an array, an object. -/
  | other
deriving DecidableEq, Repr

/-- Binding a member to a Go `string` field: an absent member and `null` leave the zero value,
a JSON string sets it, any other value is a type error. -/
def bindString (m : Option Value) : Except String GoString :=
  match m with
  | none => .ok []
  | some .null => .ok []
  | some (.string s) => .ok s
  | some _ => .error "json: cannot unmarshal value into Go struct field of type string"

/-- Binding a member to a Go `uint` field (64 bits): an absent member and `null` leave zero, an
integer in range sets it, any other value is a type error. -/
def bindUint (m : Option Value) : Except String Nat :=
  match m with
  | none => .ok 0
  | some .null => .ok 0
  | some (.number n) =>
    if 0 ≤ n ∧ n < 2 ^ 64 then .ok n.toNat
    else .error "json: cannot unmarshal number into Go struct field of type uint"
  | some _ => .error "json: cannot unmarshal value into Go struct field of type uint"

end json

/-- The body of a JSON response. -/
inductive Payload (α : Type) where
  /-- No body was written. -/
  | empty
  /-- The object with the one member `error`. -/
  | error (msg : String)
  /-- The object with the one member `message`. -/
  | message (msg : String)
  /-- The object with the members `message` and `data`. -/
  | messageData (msg : String) (data : α)
  /-- A record marshalled as it is. -/
  | record (data : α)
  /-- The object with the members `_id` and `list`. -/
  | idList (id : GoString) (list : GoString)
deriving DecidableEq, Repr

/-- An HTTP response: status code and body. -/
structure Response (α : Type) where
  status : Nat
  body : Payload α
deriving DecidableEq, Repr

/-- What the environment does to one call of the store: `none` lets the call through, `some e`
makes the driver return the error `e` (connection lost, statement rejected, ...) with the stored
data untouched. -/
abbrev Fault := Option String

/-! ## The PostgreSQL programs -/

namespace listPostgreSQL

/-- ListItem represents a record in the "lists" table: `ID uint` (json `id`, primary key, auto
increment; a `uint` of 64 bits) and `List string` (json `list`). -/
structure ListItem where
  ID : Nat
  List : GoString
deriving DecidableEq, Repr

/-- A request body as `ShouldBindJSON` and `BodyParser` read it: either a text that does not
decode as a JSON object, with the decoder's error, or an object with the members `id` and `list`
it may carry (members of other names are ignored by both binders). -/
inductive Body where
  | malformed (err : String)
  | object (id : Option json.Value) (list : Option json.Value)
deriving DecidableEq, Repr

/-- Binding a body to `var item ListItem`. -/
def bindListItem (body : Body) : Except String ListItem :=
  match body with
  | .malformed err => .error err
  | .object id list =>
    match json.bindUint id, json.bindString list with
    | .ok n, .ok s => .ok { ID := n, List := s }
    | .error err, _ => .error err
    | _, .error err => .error err

/-- Binding a body to `var updateData struct { List string }`: the member `id` is not read. -/
def bindUpdateData (body : Body) : Except String GoString :=
  match body with
  | .malformed err => .error err
  | .object _ list => json.bindString list

/-- The database behind the handle `DB`: the rows of the table "lists" and the last value the
sequence of the `id` column (a `bigserial`) has handed out. -/
structure DB where
  rows : List ListItem
  seq : Nat
deriving DecidableEq, Repr

/-- Largest value of a `bigint` column. -/
def maxBigint : Nat := 2 ^ 63 - 1

/-- What a column `varchar(n)` of a database in encoding UTF8 makes of a text written to it: a
text with a zero byte or an invalid encoding is rejected; a text of at most `n` characters is
stored as it is; of a longer text the characters beyond `n` are cut off when all of them are
spaces, and otherwise the statement fails.  The column `list` is declared `size:200`. -/
def varchar (n : Nat) (s : GoString) : Except String GoString :=
  if s.contains 0 ∨ utf8.ValidString s = false then
    .error "invalid byte sequence for encoding UTF8"
  else if utf8.RuneCountInString s ≤ n then .ok s
  else
    let cut := utf8.runeOffset s n 0
    if (sliceFrom s cut).all (fun b => b == 0x20) then .ok (substr s 0 cut)
    else .error "value too long for type character varying(200)"

/-- `DB.First(&item, id)`: the row whose primary key is `id`, or an error
(`record not found` when there is none). -/
def DB.First (db : DB) (fault : Fault) (id : Nat) : Except String ListItem :=
  match fault with
  | some e => .error e
  | none =>
    match db.rows.find? (fun r => r.ID == id) with
    | some item => .ok item
    | none => .error "record not found"

/-- The `INSERT` of a row under an explicit primary key.  The row holds what the column `list`
makes of the text; the statement returns the key alone, so `item` keeps the text as it was
handed in. -/
def DB.insert (db : DB) (item : ListItem) : Except String ListItem × DB :=
  if item.ID > maxBigint then (.error "value out of range for type bigint", db)
  else
    match varchar 200 item.List with
    | .error err => (.error err, db)
    | .ok stored =>
      if db.rows.any (fun r => r.ID == item.ID) then
        (.error "duplicate key value violates unique constraint", db)
      else (.ok item, { db with rows := db.rows ++ [{ item with List := stored }] })

/-- `DB.Create(&item)`: with a zero primary key the row takes the next value of the sequence
(which advances even when the statement then fails), with a non-zero one the row is inserted
under that key.  The created row is written back to `item`. -/
def DB.Create (db : DB) (fault : Fault) (item : ListItem) : Except String ListItem × DB :=
  match fault with
  | some e => (.error e, db)
  | none =>
    if item.ID = 0 then
      DB.insert { db with seq := db.seq + 1 } { item with ID := db.seq + 1 }
    else DB.insert db item

/-- `DB.Save(&item)`: with a zero primary key it is `Create`; otherwise an `UPDATE` of all columns
of the rows with that key, and when no row was affected an insert of the row.  The rows hold
what the column `list` makes of the text, `item` keeps the text as it was handed in. -/
def DB.Save (db : DB) (fault : Fault) (item : ListItem) : Except String ListItem × DB :=
  if item.ID = 0 then DB.Create db fault item
  else
    match fault with
    | some e => (.error e, db)
    | none =>
      if db.rows.any (fun r => r.ID == item.ID) then
        match varchar 200 item.List with
        | .error err => (.error err, db)
        | .ok stored =>
          (.ok item, { db with rows := db.rows.map fun r =>
            if r.ID == item.ID then { item with List := stored } else r })
      else DB.insert db item

/-- `DB.Delete(&item)`: a `DELETE` of the rows with the primary key of `item`; with a zero
primary key there is no condition and the call is refused. -/
def DB.Delete (db : DB) (fault : Fault) (item : ListItem) : Except String DB :=
  if item.ID = 0 then .error "WHERE conditions required"
  else
    match fault with
    | some e => .error e
    | none => .ok { db with rows := db.rows.filter fun r => r.ID != item.ID }

namespace listGoGin

/-- ValidateListField checks that the list field is non-empty and within 200 characters. -/
def ValidateListField (list : GoString) : String × Bool :=
  let trimmed := strings.TrimSpace list
  if trimmed = [] then ("List field is required", false)
  else if len trimmed > 200 then ("List field exceeds maximum length of 200", false)
  else ("", true)

/-- CreateListItem handles POST /lists. -/
def CreateListItem (db : DB) (fault : Fault) (body : Body) : Response ListItem × DB :=
  match bindListItem body with
  | .error err => (⟨400, .error err⟩, db)
  | .ok item =>
    match ValidateListField item.List with
    | (msg, false) => (⟨400, .error msg⟩, db)
    | (_, true) =>
      match db.Create fault item with
      | (.error err, db1) => (⟨500, .error err⟩, db1)
      | (.ok item, db1) => (⟨201, .messageData "List created successfully" item⟩, db1)

/-- GetListItem handles GET /lists/:id. -/
def GetListItem (db : DB) (fault : Fault) (idParam : GoString) : Response ListItem × DB :=
  match strconv.ParseUint idParam 32 with
  | .error _ => (⟨400, .error "Invalid ID"⟩, db)
  | .ok id =>
    match db.First fault id with
    | .error _ => (⟨404, .error "List not found"⟩, db)
    | .ok item => (⟨200, .record item⟩, db)

/-- UpdateListItem handles PUT /lists/:id. -/
def UpdateListItem (db : DB) (readFault writeFault : Fault) (idParam : GoString) (body : Body) :
    Response ListItem × DB :=
  match strconv.ParseUint idParam 32 with
  | .error _ => (⟨400, .error "Invalid ID"⟩, db)
  | .ok id =>
    match db.First readFault id with
    | .error _ => (⟨404, .error "List not found"⟩, db)
    | .ok item =>
      match bindUpdateData body with
      | .error err => (⟨400, .error err⟩, db)
      | .ok list =>
        match ValidateListField list with
        | (msg, false) => (⟨400, .error msg⟩, db)
        | (_, true) =>
          match db.Save writeFault { item with List := list } with
          | (.error err, db1) => (⟨500, .error err⟩, db1)
          | (.ok item, db1) => (⟨200, .messageData "List updated successfully" item⟩, db1)

/-- DeleteListItem handles DELETE /lists/:id. -/
def DeleteListItem (db : DB) (readFault writeFault : Fault) (idParam : GoString) :
    Response ListItem × DB :=
  match strconv.ParseUint idParam 32 with
  | .error _ => (⟨400, .error "Invalid ID"⟩, db)
  | .ok id =>
    match db.First readFault id with
    | .error _ => (⟨404, .error "List not found"⟩, db)
    | .ok item =>
      match db.Delete writeFault item with
      | .error err => (⟨500, .error err⟩, db)
      | .ok db1 => (⟨200, .message "List deleted successfully"⟩, db1)

end listGoGin

namespace listGoFiber

/-- ValidateListField checks that the list field is non-empty and within 200 characters. -/
def ValidateListField (list : GoString) : String × Bool :=
  let trimmed := strings.TrimSpace list
  if trimmed = [] then ("List field is required", false)
  else if len trimmed > 200 then ("List field exceeds maximum length of 200", false)
  else ("", true)

/-- CreateListItem handles POST /lists. -/
def CreateListItem (db : DB) (fault : Fault) (body : Body) : Response ListItem × DB :=
  match bindListItem body with
  | .error err => (⟨400, .error err⟩, db)
  | .ok item =>
    match ValidateListField item.List with
    | (msg, false) => (⟨400, .error msg⟩, db)
    | (_, true) =>
      match db.Create fault item with
      | (.error err, db1) => (⟨500, .error err⟩, db1)
      | (.ok item, db1) => (⟨201, .messageData "List created successfully" item⟩, db1)

/-- GetListItem handles GET /lists/:id. -/
def GetListItem (db : DB) (fault : Fault) (idParam : GoString) : Response ListItem × DB :=
  match strconv.ParseUint idParam 32 with
  | .error _ => (⟨400, .error "Invalid ID"⟩, db)
  | .ok id =>
    match db.First fault id with
    | .error _ => (⟨404, .error "List not found"⟩, db)
    | .ok item => (⟨200, .record item⟩, db)

/-- UpdateListItem handles PUT /lists/:id. -/
def UpdateListItem (db : DB) (readFault writeFault : Fault) (idParam : GoString) (body : Body) :
    Response ListItem × DB :=
  match strconv.ParseUint idParam 32 with
  | .error _ => (⟨400, .error "Invalid ID"⟩, db)
  | .ok id =>
    match db.First readFault id with
    | .error _ => (⟨404, .error "List not found"⟩, db)
    | .ok item =>
      match bindUpdateData body with
      | .error err => (⟨400, .error err⟩, db)
      | .ok list =>
        match ValidateListField list with
        | (msg, false) => (⟨400, .error msg⟩, db)
        | (_, true) =>
          match db.Save writeFault { item with List := list } with
          | (.error err, db1) => (⟨500, .error err⟩, db1)
          | (.ok item, db1) => (⟨200, .messageData "List updated successfully" item⟩, db1)

/-- DeleteListItem handles DELETE /lists/:id. -/
def DeleteListItem (db : DB) (readFault writeFault : Fault) (idParam : GoString) :
    Response ListItem × DB :=
  match strconv.ParseUint idParam 32 with
  | .error _ => (⟨400, .error "Invalid ID"⟩, db)
  | .ok id =>
    match db.First readFault id with
    | .error _ => (⟨404, .error "List not found"⟩, db)
    | .ok item =>
      match db.Delete writeFault item with
      | .error err => (⟨500, .error err⟩, db)
      | .ok db1 => (⟨200, .message "List deleted successfully"⟩, db1)

end listGoFiber

end listPostgreSQL

/-! ## The MongoDB programs -/

namespace hex

/-- The table `hextable`, "0123456789abcdef". -/
def hextable (n : Nat) : UInt8 :=
  if n < 10 then UInt8.ofNat (0x30 + n) else UInt8.ofNat (0x61 + (n - 10))

/-- `hex.EncodeToString`: two lower-case digits per byte. -/
def EncodeToString : List UInt8 → GoString
  | [] => []
  | b :: rest => hextable (b.toNat / 16) :: hextable (b.toNat % 16) :: EncodeToString rest

/-- `hex.fromHexChar`: the value of a hexadecimal digit, of either case. -/
def fromHexChar (c : UInt8) : Option Nat :=
  if 0x30 ≤ c.toNat ∧ c.toNat ≤ 0x39 then some (c.toNat - 0x30)
  else if 0x61 ≤ c.toNat ∧ c.toNat ≤ 0x66 then some (c.toNat - 0x61 + 10)
  else if 0x41 ≤ c.toNat ∧ c.toNat ≤ 0x46 then some (c.toNat - 0x41 + 10)
  else none

/-- `hex.DecodeString`: `none` on a byte that is not a digit and on an odd length. -/
def DecodeString : GoString → Option (List UInt8)
  | [] => some []
  | [_] => none
  | a :: b :: rest =>
    match fromHexChar a, fromHexChar b, DecodeString rest with
    | some hi, some lo, some bytes => some (UInt8.ofNat (hi * 16 + lo) :: bytes)
    | _, _, _ => none

end hex

namespace listMongoDB

/-- `primitive.ObjectID`: twelve bytes. -/
abbrev ObjectID := { b : List UInt8 // b.length = 12 }

/-- `primitive.NilObjectID`, the zero value. -/
def NilObjectID : ObjectID := ⟨List.replicate 12 0, rfl⟩

/-- `ObjectID.IsZero`. -/
def ObjectID.IsZero (id : ObjectID) : Bool := id == NilObjectID

/-- `ObjectID.Hex`: the 24 hexadecimal digits of the identifier. -/
def ObjectID.Hex (id : ObjectID) : GoString := hex.EncodeToString id.val

/-- `primitive.ObjectIDFromHex`: the identifier written by a string of 24 hexadecimal digits. -/
def ObjectIDFromHex (s : GoString) : Except String ObjectID :=
  if len s ≠ 24 then .error "the provided hex string is not a valid ObjectID"
  else
    match hex.DecodeString s with
    | none => .error "encoding/hex: invalid byte"
    | some bytes =>
      if h : bytes.length = 12 then .ok ⟨bytes, h⟩
      else .error "the provided hex string is not a valid ObjectID"

/-- ListItem represents a document with a single "list" field; the embedded `mgm.DefaultModel`
provides the `_id` field (json `id`) and the two time stamps `created_at` and `updated_at`.  A
time is an instant counted from the zero time. -/
structure ListItem where
  ID : ObjectID
  CreatedAt : Nat
  UpdatedAt : Nat
  List : GoString
deriving DecidableEq, Repr

/-- What `primitive.ObjectID.UnmarshalJSON` makes of the member `id` of a body. -/
inductive IDMember where
  /-- The member unmarshals to this identifier. -/
  | oid (id : ObjectID)
  /-- The member is rejected with this error. -/
  | invalid (err : String)
deriving DecidableEq, Repr

/-- A request body as `ShouldBindJSON` and `BodyParser` read it: either a text that the decoder
rejects for another reason than its members `id` and `list` (it is not a JSON object, or its
member `created_at` or `updated_at` is no time), with the decoder's error, or an object with the
members `id` (absent, or `null` when `none`) and `list` it may carry. -/
inductive Body where
  | malformed (err : String)
  | object (id : Option IDMember) (list : Option json.Value)
deriving DecidableEq, Repr

/-- Binding a body to `var item ListItem`.  The time stamps a body may carry are not kept here:
`Create` sets both before the document is inserted, and nothing reads them before. -/
def bindListItem (body : Body) : Except String ListItem :=
  match body with
  | .malformed err => .error err
  | .object id list =>
    match id, json.bindString list with
    | some (.invalid err), _ => .error err
    | _, .error err => .error err
    | none, .ok s => .ok { ID := NilObjectID, CreatedAt := 0, UpdatedAt := 0, List := s }
    | some (.oid o), .ok s => .ok { ID := o, CreatedAt := 0, UpdatedAt := 0, List := s }

/-- Binding a body to `var updateData struct { List string }`: the member `id` is not read. -/
def bindUpdateData (body : Body) : Except String GoString :=
  match body with
  | .malformed err => .error err
  | .object _ list => json.bindString list

/-- The collection "lists", as `mgm.Coll` gives access to it: its documents. -/
structure Collection where
  docs : List ListItem
deriving DecidableEq, Repr

/-- `FindByID(id, &item)`: the string is turned into an identifier, then the document with that
`_id` is read; an error when the string is no identifier and when there is no such document. -/
def Collection.FindByID (coll : Collection) (fault : Fault) (id : GoString) :
    Except String ListItem :=
  match ObjectIDFromHex id with
  | .error err => .error err
  | .ok oid =>
    match fault with
    | some e => .error e
    | none =>
      match coll.docs.find? (fun d => d.ID == oid) with
      | some item => .ok item
      | none => .error "mongo: no documents in result"

/-- `Create(&item)`: the hooks of `mgm.DefaultModel` set `created_at` (`Creating`) and
`updated_at` (`Saving`) to the time they read, `creating` and `saving`; then `InsertOne` of the
document; a zero `_id` is left out of the document and the driver generates one (`newID`); the
`_id` of the inserted document is written back to `item`.  `_id` is unique in a collection. -/
def Collection.Create (coll : Collection) (fault : Fault) (newID : ObjectID)
    (creating saving : Nat) (item : ListItem) : Except String (ListItem × Collection) :=
  let item : ListItem := { item with CreatedAt := creating, UpdatedAt := saving }
  match fault with
  | some e => .error e
  | none =>
    let doc : ListItem := if item.ID.IsZero then { item with ID := newID } else item
    if coll.docs.any (fun d => d.ID == doc.ID) then .error "E11000 duplicate key error"
    else .ok (doc, { docs := coll.docs ++ [doc] })

/-- `$set` of the fields of `item` on the first document with the `_id` of `item`. -/
def setOne (item : ListItem) : List ListItem → List ListItem
  | [] => []
  | d :: rest => if d.ID == item.ID then item :: rest else d :: setOne item rest

/-- `Update(&item)`: the hook `Saving` of `mgm.DefaultModel` sets `updated_at` to the time it
reads, `saving`; then `UpdateOne` by the `_id` of `item`, setting its fields; matching no
document is not an error.  The result carries `item` as the hook has left it. -/
def Collection.Update (coll : Collection) (fault : Fault) (saving : Nat) (item : ListItem) :
    Except String (ListItem × Collection) :=
  let item : ListItem := { item with UpdatedAt := saving }
  match fault with
  | some e => .error e
  | none => .ok (item, { docs := setOne item coll.docs })

/-- `Delete(&item)`: `DeleteOne` by the `_id` of `item`; matching no document is not an error. -/
def Collection.Delete (coll : Collection) (fault : Fault) (item : ListItem) :
    Except String Collection :=
  match fault with
  | some e => .error e
  | none => .ok { docs := coll.docs.eraseP fun d => d.ID == item.ID }

namespace listGoFiber

/-- ValidateListField checks that the list field is non-empty and within 200 characters. -/
def ValidateListField (list : GoString) : String × Bool :=
  let trimmed := strings.TrimSpace list
  if trimmed = [] then ("List field is required", false)
  else if len trimmed > 200 then ("List field exceeds maximum length of 200", false)
  else ("", true)

/-- CreateListItem handles POST /lists.  It validates the input and creates a new document. -/
def CreateListItem (coll : Collection) (fault : Fault) (newID : ObjectID)
    (creating saving : Nat) (body : Body) : Response ListItem × Collection :=
  match bindListItem body with
  | .error err => (⟨400, .error err⟩, coll)
  | .ok item =>
    match ValidateListField item.List with
    | (msg, false) => (⟨400, .error msg⟩, coll)
    | (_, true) =>
      match coll.Create fault newID creating saving item with
      | .error err => (⟨500, .error err⟩, coll)
      | .ok (item, coll1) => (⟨201, .messageData "List created successfully" item⟩, coll1)

/-- GetListItem handles GET /lists/:id and returns a single document by ID. -/
def GetListItem (coll : Collection) (fault : Fault) (id : GoString) :
    Response ListItem × Collection :=
  match coll.FindByID fault id with
  | .error _ => (⟨404, .error "List not found"⟩, coll)
  | .ok item => (⟨200, .idList item.ID.Hex item.List⟩, coll)

/-- UpdateListItem handles PUT /lists/:id.  It validates input and updates the list field. -/
def UpdateListItem (coll : Collection) (readFault writeFault : Fault) (saving : Nat)
    (id : GoString) (body : Body) : Response ListItem × Collection :=
  match coll.FindByID readFault id with
  | .error _ => (⟨404, .error "List not found"⟩, coll)
  | .ok item =>
    match bindUpdateData body with
    | .error err => (⟨400, .error err⟩, coll)
    | .ok list =>
      match ValidateListField list with
      | (msg, false) => (⟨400, .error msg⟩, coll)
      | (_, true) =>
        match coll.Update writeFault saving { item with List := list } with
        | .error err => (⟨500, .error err⟩, coll)
        | .ok (item, coll1) => (⟨200, .messageData "List updated successfully" item⟩, coll1)

/-- DeleteListItem handles DELETE /lists/:id and removes a document. -/
def DeleteListItem (coll : Collection) (readFault writeFault : Fault) (id : GoString) :
    Response ListItem × Collection :=
  match coll.FindByID readFault id with
  | .error _ => (⟨404, .error "List not found"⟩, coll)
  | .ok item =>
    match coll.Delete writeFault item with
    | .error err => (⟨500, .error err⟩, coll)
    | .ok coll1 => (⟨200, .message "List deleted successfully"⟩, coll1)

end listGoFiber

namespace listGoGin

/-- ValidateListField checks that the list field is non-empty and within 200 characters. -/
def ValidateListField (list : GoString) : String × Bool :=
  let trimmed := strings.TrimSpace list
  if trimmed = [] then ("List field is required", false)
  else if len trimmed > 200 then ("List field exceeds maximum length of 200", false)
  else ("", true)

/-- CreateListItem handles POST /lists.  It validates the input and creates a new document.
`AbortWithError` sets the status and writes no body. -/
def CreateListItem (coll : Collection) (fault : Fault) (newID : ObjectID)
    (creating saving : Nat) (body : Body) : Response ListItem × Collection :=
  match bindListItem body with
  | .error _ => (⟨400, .empty⟩, coll)
  | .ok item =>
    match ValidateListField item.List with
    | (msg, false) => (⟨400, .error msg⟩, coll)
    | (_, true) =>
      match coll.Create fault newID creating saving item with
      | .error _ => (⟨500, .empty⟩, coll)
      | .ok (item, coll1) => (⟨201, .messageData "List created successfully" item⟩, coll1)

/-- GetListItem handles GET /lists/:id and returns a single document by ID. -/
def GetListItem (coll : Collection) (fault : Fault) (id : GoString) :
    Response ListItem × Collection :=
  match coll.FindByID fault id with
  | .error _ => (⟨404, .error "List not found"⟩, coll)
  | .ok item => (⟨200, .idList item.ID.Hex item.List⟩, coll)

/-- UpdateListItem handles PUT /lists/:id.  It validates input and updates the list field. -/
def UpdateListItem (coll : Collection) (readFault writeFault : Fault) (saving : Nat)
    (id : GoString) (body : Body) : Response ListItem × Collection :=
  match coll.FindByID readFault id with
  | .error _ => (⟨404, .error "List not found"⟩, coll)
  | .ok item =>
    match bindUpdateData body with
    | .error _ => (⟨400, .empty⟩, coll)
    | .ok list =>
      match ValidateListField list with
      | (msg, false) => (⟨400, .error msg⟩, coll)
      | (_, true) =>
        match coll.Update writeFault saving { item with List := list } with
        | .error _ => (⟨500, .empty⟩, coll)
        | .ok (item, coll1) => (⟨200, .messageData "List updated successfully" item⟩, coll1)

/-- DeleteListItem handles DELETE /lists/:id and removes a document. -/
def DeleteListItem (coll : Collection) (readFault writeFault : Fault) (id : GoString) :
    Response ListItem × Collection :=
  match coll.FindByID readFault id with
  | .error _ => (⟨404, .error "List not found"⟩, coll)
  | .ok item =>
    match coll.Delete writeFault item with
    | .error _ => (⟨500, .empty⟩, coll)
    | .ok coll1 => (⟨200, .message "List deleted successfully"⟩, coll1)

end listGoGin

end listMongoDB

/-! ## Concrete inputs -/

/-- The letter `a` followed by 200 spaces: 201 bytes. -/
def aThenSpaces : GoString := 0x61 :: List.replicate 200 0x20

/-- The letter `a` followed by 199 spaces: 200 bytes. -/
def aThen199Spaces : GoString := 0x61 :: List.replicate 199 0x20

/-- 201 spaces. -/
def spaces201 : GoString := List.replicate 201 0x20

/-- 201 letters `a`. -/
def a201 : GoString := List.replicate 201 0x61

/-- 101 times the letter e with acute accent, U+00E9, two bytes each in UTF-8: 202 bytes. -/
def eAcute101 : GoString := (List.replicate 101 [0xC3, 0xA9]).flatten

/-- White space only: a space, a tab, U+00A0 and U+3000. -/
def blanks : GoString := [0x20, 0x09, 0xC2, 0xA0, 0xE3, 0x80, 0x80]

/-- The text "Buy milk". -/
def buyMilk : GoString := [0x42, 0x75, 0x79, 0x20, 0x6D, 0x69, 0x6C, 0x6B]

/-- The text "  Buy milk " with blanks around it. -/
def buyMilkPadded : GoString := [0x20, 0x20] ++ buyMilk ++ [0x20]

/-- The path parameter `abc`. -/
def idABC : GoString := [0x61, 0x62, 0x63]

/-- The path parameter `1`. -/
def idOne : GoString := [0x31]

/-- The body `{"list": "Buy milk"}`. -/
def bodyBuyMilk : listPostgreSQL.Body := .object none (some (.string buyMilk))

/-- The body `{"list": "   "}`. -/
def bodyBlank : listPostgreSQL.Body := .object none (some (.string [0x20, 0x20, 0x20]))

/-- A table with the one row `{1, "Buy milk"}`. -/
def dbOne : listPostgreSQL.DB := { rows := [{ ID := 1, List := buyMilk }], seq := 1 }

/-- The path parameter `2`. -/
def idTwo : GoString := [0x32]

/-- The path parameter `4294967296`, which is `2 ^ 32`. -/
def idTwoPow32 : GoString := [0x34, 0x32, 0x39, 0x34, 0x39, 0x36, 0x37, 0x32, 0x39, 0x36]

/-- The body `{"id": 4294967296, "list": "Buy milk"}`. -/
def bodyBigID : listPostgreSQL.Body := .object (some (.number 4294967296)) (some (.string buyMilk))

/-- The identifier `0102030405060708090a0b0c`. -/
def oidSample : listMongoDB.ObjectID := ⟨[1, 2, 3, 4, 5, 6, 7, 8, 9, 10, 11, 12], rfl⟩

/-- The body `{"list": "Buy milk"}`, for the MongoDB programs. -/
def mongoBodyBuyMilk : listMongoDB.Body := .object none (some (.string buyMilk))

/-- The body `{"id": 7, "list": "Buy milk"}`. -/
def bodyWithID7 : listPostgreSQL.Body := .object (some (.number 7)) (some (.string buyMilk))

/-- The body `{"id": true, "list": "Buy milk"}`. -/
def bodyWithIDTrue : listPostgreSQL.Body := .object (some .other) (some (.string buyMilk))

/-- The body `{"id": "0102030405060708090a0b0c", "list": "Buy milk"}`, for the MongoDB
programs. -/
def mongoBodyWithID : listMongoDB.Body := .object (some (.oid oidSample)) (some (.string buyMilk))

/-- A table with the rows `{1, "Buy milk"}` and `{2, "a"}`. -/
def dbTwo : listPostgreSQL.DB :=
  { rows := [{ ID := 1, List := buyMilk }, { ID := 2, List := [0x61] }], seq := 2 }

/-- A collection with two documents. -/
def collTwo : listMongoDB.Collection :=
  { docs := [{ ID := oidSample, CreatedAt := 1, UpdatedAt := 1, List := buyMilk },
      { ID := listMongoDB.NilObjectID, CreatedAt := 2, UpdatedAt := 2, List := [0x61] }] }

/-- A collection with one document, created and last updated at the instant 1. -/
def collOne : listMongoDB.Collection :=
  { docs := [{ ID := oidSample, CreatedAt := 1, UpdatedAt := 1, List := buyMilk }] }

/-- The body `{"list": "a"}`, for the MongoDB programs. -/
def mongoBodyA : listMongoDB.Body := .object none (some (.string [0x61]))

/-- The body `{"list": "a"}` with 200 spaces after the `a`. -/
def bodyAThenSpaces : listPostgreSQL.Body := .object none (some (.string aThenSpaces))

/-- A table with the one row `{4294967296, "Buy milk"}`. -/
def dbBigID : listPostgreSQL.DB := { rows := [{ ID := 4294967296, List := buyMilk }], seq := 0 }

/-- The body `{"list": "a"}`. -/
def bodyA : listPostgreSQL.Body := .object none (some (.string [0x61]))

/-! ## Lengths of trimmed strings -/

theorem len_substr_le (s : GoString) (lo hi : Nat) : len (substr s lo hi) ≤ len s := by
  simp only [len, substr, List.length_drop, List.length_take]
  omega

theorem len_sliceFrom_le (s : GoString) (lo : Nat) : len (sliceFrom s lo) ≤ len s := by
  simp only [len, sliceFrom, List.length_drop]
  omega

theorem strings.len_TrimLeftFunc_le (s : GoString) (f : Nat → Bool) :
    len (strings.TrimLeftFunc s f) ≤ len s := by
  simp only [strings.TrimLeftFunc]
  split
  · simp [len]
  · exact len_sliceFrom_le _ _

theorem strings.len_TrimRightFunc_le (s : GoString) (f : Nat → Bool) :
    len (strings.TrimRightFunc s f) ≤ len s := by
  simp only [strings.TrimRightFunc]
  split <;> exact len_substr_le _ _ _

theorem strings.len_TrimFunc_le (s : GoString) (f : Nat → Bool) :
    len (strings.TrimFunc s f) ≤ len s :=
  Nat.le_trans (strings.len_TrimRightFunc_le _ f) (strings.len_TrimLeftFunc_le s f)

/-- Trimming never lengthens a string. -/
theorem strings.len_TrimSpace_le (s : GoString) : len (strings.TrimSpace s) ≤ len s := by
  unfold strings.TrimSpace
  split
  · exact Nat.le_trans (strings.len_TrimFunc_le _ _) (len_sliceFrom_le _ _)
  · split
    · exact Nat.le_trans (strings.len_TrimRightFunc_le _ _) (len_substr_le _ _ _)
    · exact len_substr_le _ _ _

/-! ## Validation -/

/-- C1, as stated, fails: `"a"` followed by 200 spaces has 201 bytes and is accepted, and 201
spaces are rejected with the other message, "List field is required". -/
theorem ValidateListField_long_untrimmed_not_rejected :
    len aThenSpaces > 200 ∧ len spaces201 > 200
      ∧ listMongoDB.listGoFiber.ValidateListField aThenSpaces = ("", true)
      ∧ listPostgreSQL.listGoGin.ValidateListField aThenSpaces = ("", true)
      ∧ listMongoDB.listGoFiber.ValidateListField spaces201 = ("List field is required", false)
      ∧ listPostgreSQL.listGoGin.ValidateListField spaces201
          = ("List field is required", false) := by
  set_option maxRecDepth 100000 in decide

/-- C1, amended: for every string `s` whose trimmed value `strings.TrimSpace(s)` has more than
200 bytes, `ValidateListField(s)` fails with "List field exceeds maximum length of 200", in each
of the four programs. -/
theorem ValidateListField_rejects_long_trimmed (s : GoString)
    (h : len (strings.TrimSpace s) > 200) :
    listMongoDB.listGoFiber.ValidateListField s
        = ("List field exceeds maximum length of 200", false)
      ∧ listMongoDB.listGoGin.ValidateListField s
        = ("List field exceeds maximum length of 200", false)
      ∧ listPostgreSQL.listGoFiber.ValidateListField s
        = ("List field exceeds maximum length of 200", false)
      ∧ listPostgreSQL.listGoGin.ValidateListField s
        = ("List field exceeds maximum length of 200", false) := by
  have hne : strings.TrimSpace s ≠ [] := by
    intro h0
    rw [h0] at h
    simp [len] at h
  simp [listMongoDB.listGoFiber.ValidateListField, listMongoDB.listGoGin.ValidateListField,
    listPostgreSQL.listGoFiber.ValidateListField, listPostgreSQL.listGoGin.ValidateListField,
    hne, h]

theorem ValidateListField_rejects_long_trimmed_witness :
    len (strings.TrimSpace a201) > 200
      ∧ listPostgreSQL.listGoGin.ValidateListField a201
        = ("List field exceeds maximum length of 200", false) :=
  ⟨by set_option maxRecDepth 100000 in decide,
    (ValidateListField_rejects_long_trimmed a201
      (by set_option maxRecDepth 100000 in decide)).2.2.2⟩

/-- C2: for every string `s` whose `strings.TrimSpace` result is empty, `ValidateListField(s)`
returns `("List field is required", false)`, in each of the four programs. -/
theorem ValidateListField_requires_nonblank (s : GoString) (h : strings.TrimSpace s = []) :
    listMongoDB.listGoFiber.ValidateListField s = ("List field is required", false)
      ∧ listMongoDB.listGoGin.ValidateListField s = ("List field is required", false)
      ∧ listPostgreSQL.listGoFiber.ValidateListField s = ("List field is required", false)
      ∧ listPostgreSQL.listGoGin.ValidateListField s = ("List field is required", false) := by
  simp [listMongoDB.listGoFiber.ValidateListField, listMongoDB.listGoGin.ValidateListField,
    listPostgreSQL.listGoFiber.ValidateListField, listPostgreSQL.listGoGin.ValidateListField, h]

theorem ValidateListField_requires_nonblank_witness :
    strings.TrimSpace [] = [] ∧ strings.TrimSpace blanks = []
      ∧ listMongoDB.listGoGin.ValidateListField blanks = ("List field is required", false)
      ∧ listPostgreSQL.listGoFiber.ValidateListField [] = ("List field is required", false) :=
  ⟨by decide, by decide, (ValidateListField_requires_nonblank blanks (by decide)).2.1,
    (ValidateListField_requires_nonblank [] (by decide)).2.2.1⟩

/-- C3: for every string `s` with a non-empty `strings.TrimSpace(s)` and `len(s) <= 200`,
`ValidateListField(s)` returns `("", true)`, in each of the four programs. -/
theorem ValidateListField_accepts_short_nonblank (s : GoString)
    (hne : strings.TrimSpace s ≠ []) (hlen : len s ≤ 200) :
    listMongoDB.listGoFiber.ValidateListField s = ("", true)
      ∧ listMongoDB.listGoGin.ValidateListField s = ("", true)
      ∧ listPostgreSQL.listGoFiber.ValidateListField s = ("", true)
      ∧ listPostgreSQL.listGoGin.ValidateListField s = ("", true) := by
  have hle : ¬ len (strings.TrimSpace s) > 200 := by
    have := strings.len_TrimSpace_le s
    omega
  simp [listMongoDB.listGoFiber.ValidateListField, listMongoDB.listGoGin.ValidateListField,
    listPostgreSQL.listGoFiber.ValidateListField, listPostgreSQL.listGoGin.ValidateListField,
    hne, hle]

theorem ValidateListField_accepts_short_nonblank_witness :
    strings.TrimSpace buyMilkPadded = buyMilk ∧ len buyMilkPadded ≤ 200
      ∧ listMongoDB.listGoFiber.ValidateListField buyMilkPadded = ("", true) :=
  ⟨by decide, by decide,
    (ValidateListField_accepts_short_nonblank buyMilkPadded (by decide) (by decide)).1⟩

/-- C4 at its failing input: 101 letters U+00E9 are a non-empty value of 101 characters, and
`ValidateListField` rejects it in each of the four programs, as it counts the 202 bytes. -/
theorem ValidateListField_rejects_101_characters :
    strings.TrimSpace eAcute101 = eAcute101 ∧ eAcute101 ≠ []
      ∧ utf8.RuneCountInString (strings.TrimSpace eAcute101) = 101
      ∧ len (strings.TrimSpace eAcute101) = 202
      ∧ listMongoDB.listGoFiber.ValidateListField eAcute101
        = ("List field exceeds maximum length of 200", false)
      ∧ listMongoDB.listGoGin.ValidateListField eAcute101
        = ("List field exceeds maximum length of 200", false)
      ∧ listPostgreSQL.listGoFiber.ValidateListField eAcute101
        = ("List field exceeds maximum length of 200", false)
      ∧ listPostgreSQL.listGoGin.ValidateListField eAcute101
        = ("List field exceeds maximum length of 200", false) := by
  set_option maxRecDepth 100000 in decide

/-! ## Identifiers written out and read back -/

theorem byte_toNat_ofNat (n : Nat) (h : n < 256) : (UInt8.ofNat n).toNat = n := by
  simp [UInt8.ofNat, UInt8.toNat, Fin.ofNat, Nat.mod_eq_of_lt h]

theorem strconv.parseDigits_digit (maxVal : Nat) (rest : GoString) (n d : Nat) (hd : d < 10)
    (hn : n * 10 + d ≤ maxVal) (hmax : maxVal < 2 ^ 64) :
    strconv.parseDigits maxVal (UInt8.ofNat (0x30 + d) :: rest) n
      = strconv.parseDigits maxVal rest (n * 10 + d) := by
  have hb : (UInt8.ofNat (0x30 + d)).toNat = 0x30 + d :=
    byte_toNat_ofNat _ (by omega)
  have h1 : n * 10 % 2 ^ 64 = n * 10 := Nat.mod_eq_of_lt (by omega)
  have h2 : (n * 10 + d) % 2 ^ 64 = n * 10 + d := Nat.mod_eq_of_lt (by omega)
  have h3 : ¬ n ≥ (2 ^ 64 - 1) / 10 + 1 := by omega
  simp only [strconv.parseDigits, hb]
  rw [if_pos (by omega), if_neg h3]
  simp only [Nat.add_sub_cancel_left, h1, h2]
  rw [if_neg (by omega)]

theorem strconv.parseDigits_formatBits (maxVal : Nat) (hmax : maxVal < 2 ^ 64) :
    ∀ (fuel u : Nat) (acc : GoString), u < 10 ^ fuel → u ≤ maxVal →
      strconv.parseDigits maxVal (strconv.formatBits fuel u acc) 0
        = strconv.parseDigits maxVal acc u := by
  intro fuel
  induction fuel with
  | zero =>
    intro u acc hu _
    have : u = 0 := by simpa using hu
    simp [strconv.formatBits, this]
  | succ fuel ih =>
    intro u acc hu hle
    unfold strconv.formatBits
    split
    · rename_i hlt
      have := strconv.parseDigits_digit maxVal acc 0 u hlt (by omega) hmax
      simpa using this
    · rename_i hge
      have hdiv : u / 10 < 10 ^ fuel := by
        rw [Nat.div_lt_iff_lt_mul (by decide)]
        rw [pow_succ] at hu
        exact hu
      rw [ih (u / 10) _ hdiv (by omega)]
      have := strconv.parseDigits_digit maxVal acc (u / 10) (u % 10) (Nat.mod_lt _ (by decide))
        (by omega) hmax
      rw [this]
      congr 1
      omega

theorem strconv.formatBits_ne_nil (fuel u : Nat) (acc : GoString) :
    strconv.formatBits (fuel + 1) u acc ≠ [] := by
  induction fuel generalizing u acc with
  | zero =>
    unfold strconv.formatBits
    split <;> simp [strconv.formatBits]
  | succ fuel ih =>
    unfold strconv.formatBits
    split
    · simp
    · exact ih _ _

/-- An identifier below `2 ^ 32`, written out in decimal, is read back by `ParseUint(s, 10, 32)`. -/
theorem strconv.ParseUint_FormatUint (n : Nat) (h : n < 2 ^ 32) :
    strconv.ParseUint (strconv.FormatUint n) 32 = .ok n := by
  unfold strconv.ParseUint strconv.FormatUint
  rw [if_neg (strconv.formatBits_ne_nil 19 n [])]
  rw [strconv.parseDigits_formatBits (2 ^ 32 - 1) (by norm_num) 20 n [] (by omega) (by omega)]
  rfl

theorem hex.fromHexChar_hextable (n : Nat) (h : n < 16) :
    hex.fromHexChar (hex.hextable n) = some n := by
  interval_cases n <;> rfl

theorem hex.DecodeString_EncodeToString (bytes : List UInt8) :
    hex.DecodeString (hex.EncodeToString bytes) = some bytes := by
  induction bytes with
  | nil => rfl
  | cons b rest ih =>
    have hb : b.toNat < 256 := b.val.isLt
    simp only [hex.EncodeToString, hex.DecodeString, ih,
      hex.fromHexChar_hextable _ (Nat.div_lt_of_lt_mul (by omega : b.toNat < 16 * 16)),
      hex.fromHexChar_hextable _ (Nat.mod_lt _ (by decide : 16 > 0))]
    have : b.toNat / 16 * 16 + b.toNat % 16 = b.toNat := by omega
    rw [this]
    congr 2
    cases b with
    | mk v => simp [UInt8.ofNat, UInt8.toNat, Fin.ofNat, Nat.mod_eq_of_lt v.isLt]

theorem hex.length_EncodeToString (bytes : List UInt8) :
    (hex.EncodeToString bytes).length = 2 * bytes.length := by
  induction bytes with
  | nil => rfl
  | cons b rest ih => simp [hex.EncodeToString, ih]; omega

/-- The 24 digits of an identifier are read back as that identifier. -/
theorem listMongoDB.ObjectIDFromHex_Hex (id : listMongoDB.ObjectID) :
    listMongoDB.ObjectIDFromHex id.Hex = .ok id := by
  obtain ⟨bytes, hlen⟩ := id
  simp [listMongoDB.ObjectIDFromHex, listMongoDB.ObjectID.Hex, len,
    hex.length_EncodeToString, hex.DecodeString_EncodeToString, hlen]

theorem listMongoDB.len_Hex (id : listMongoDB.ObjectID) : len id.Hex = 24 := by
  obtain ⟨bytes, hlen⟩ := id
  simp [listMongoDB.ObjectID.Hex, len, hex.length_EncodeToString, hlen]

/-! ## Rejected requests leave the store alone -/

/-- C5, as stated, fails in the PostgreSQL programs: the table holds a record of the id
4294967296, the body `{"list": "   "}` is well formed and its list value is rejected, and
`UpdateListItem` on that id answers 400 with the error "Invalid ID", which is not the validation
message. -/
theorem UpdateListItem_invalid_list_on_id_out_of_range :
    dbBigID.First none 4294967296 = .ok ⟨4294967296, buyMilk⟩
      ∧ strconv.FormatUint 4294967296 = idTwoPow32
      ∧ listPostgreSQL.bindUpdateData bodyBlank = .ok [0x20, 0x20, 0x20]
      ∧ listPostgreSQL.listGoGin.ValidateListField [0x20, 0x20, 0x20]
        = ("List field is required", false)
      ∧ listPostgreSQL.listGoGin.UpdateListItem dbBigID none none idTwoPow32 bodyBlank
        = (⟨400, .error "Invalid ID"⟩, dbBigID)
      ∧ listPostgreSQL.listGoFiber.UpdateListItem dbBigID none none idTwoPow32 bodyBlank
        = (⟨400, .error "Invalid ID"⟩, dbBigID) := by
  decide

/-- C5, amended: in each of the four programs, when the body binds and `ValidateListField`
rejects its list value with message `msg`, `CreateListItem` answers 400 with `{"error": msg}` and
the store is as before; so does `UpdateListItem` on an id that has a record, which in the
PostgreSQL programs is an id that `ParseUint(id, 10, 32)` reads and whose record the store
returns. -/
theorem validation_failure_writes_nothing :
    (∀ (db : listPostgreSQL.DB) (fault : Fault) (body : listPostgreSQL.Body)
        (item : listPostgreSQL.ListItem) (msg : String),
        listPostgreSQL.bindListItem body = .ok item →
        listPostgreSQL.listGoGin.ValidateListField item.List = (msg, false) →
        listPostgreSQL.listGoGin.CreateListItem db fault body = (⟨400, .error msg⟩, db))
    ∧ (∀ (db : listPostgreSQL.DB) (readFault writeFault : Fault) (idParam : GoString)
        (body : listPostgreSQL.Body) (id : Nat) (item : listPostgreSQL.ListItem)
        (list : GoString) (msg : String),
        strconv.ParseUint idParam 32 = .ok id → db.First readFault id = .ok item →
        listPostgreSQL.bindUpdateData body = .ok list →
        listPostgreSQL.listGoGin.ValidateListField list = (msg, false) →
        listPostgreSQL.listGoGin.UpdateListItem db readFault writeFault idParam body
          = (⟨400, .error msg⟩, db))
    ∧ (∀ (db : listPostgreSQL.DB) (fault : Fault) (body : listPostgreSQL.Body)
        (item : listPostgreSQL.ListItem) (msg : String),
        listPostgreSQL.bindListItem body = .ok item →
        listPostgreSQL.listGoFiber.ValidateListField item.List = (msg, false) →
        listPostgreSQL.listGoFiber.CreateListItem db fault body = (⟨400, .error msg⟩, db))
    ∧ (∀ (db : listPostgreSQL.DB) (readFault writeFault : Fault) (idParam : GoString)
        (body : listPostgreSQL.Body) (id : Nat) (item : listPostgreSQL.ListItem)
        (list : GoString) (msg : String),
        strconv.ParseUint idParam 32 = .ok id → db.First readFault id = .ok item →
        listPostgreSQL.bindUpdateData body = .ok list →
        listPostgreSQL.listGoFiber.ValidateListField list = (msg, false) →
        listPostgreSQL.listGoFiber.UpdateListItem db readFault writeFault idParam body
          = (⟨400, .error msg⟩, db))
    ∧ (∀ (coll : listMongoDB.Collection) (fault : Fault) (newID : listMongoDB.ObjectID)
        (creating saving : Nat) (body : listMongoDB.Body) (item : listMongoDB.ListItem)
        (msg : String),
        listMongoDB.bindListItem body = .ok item →
        listMongoDB.listGoGin.ValidateListField item.List = (msg, false) →
        listMongoDB.listGoGin.CreateListItem coll fault newID creating saving body
          = (⟨400, .error msg⟩, coll))
    ∧ (∀ (coll : listMongoDB.Collection) (readFault writeFault : Fault) (saving : Nat)
        (id : GoString) (body : listMongoDB.Body) (item : listMongoDB.ListItem)
        (list : GoString) (msg : String),
        coll.FindByID readFault id = .ok item →
        listMongoDB.bindUpdateData body = .ok list →
        listMongoDB.listGoGin.ValidateListField list = (msg, false) →
        listMongoDB.listGoGin.UpdateListItem coll readFault writeFault saving id body
          = (⟨400, .error msg⟩, coll))
    ∧ (∀ (coll : listMongoDB.Collection) (fault : Fault) (newID : listMongoDB.ObjectID)
        (creating saving : Nat) (body : listMongoDB.Body) (item : listMongoDB.ListItem)
        (msg : String),
        listMongoDB.bindListItem body = .ok item →
        listMongoDB.listGoFiber.ValidateListField item.List = (msg, false) →
        listMongoDB.listGoFiber.CreateListItem coll fault newID creating saving body
          = (⟨400, .error msg⟩, coll))
    ∧ (∀ (coll : listMongoDB.Collection) (readFault writeFault : Fault) (saving : Nat)
        (id : GoString) (body : listMongoDB.Body) (item : listMongoDB.ListItem)
        (list : GoString) (msg : String),
        coll.FindByID readFault id = .ok item →
        listMongoDB.bindUpdateData body = .ok list →
        listMongoDB.listGoFiber.ValidateListField list = (msg, false) →
        listMongoDB.listGoFiber.UpdateListItem coll readFault writeFault saving id body
          = (⟨400, .error msg⟩, coll)) := by
  refine ⟨?_, ?_, ?_, ?_, ?_, ?_, ?_, ?_⟩
  · intro db fault body item msg hb hv
    simp [listPostgreSQL.listGoGin.CreateListItem, hb, hv]
  · intro db rf wf idParam body id item list msg hp hf hb hv
    simp [listPostgreSQL.listGoGin.UpdateListItem, hp, hf, hb, hv]
  · intro db fault body item msg hb hv
    simp [listPostgreSQL.listGoFiber.CreateListItem, hb, hv]
  · intro db rf wf idParam body id item list msg hp hf hb hv
    simp [listPostgreSQL.listGoFiber.UpdateListItem, hp, hf, hb, hv]
  · intro coll fault newID creating saving body item msg hb hv
    simp [listMongoDB.listGoGin.CreateListItem, hb, hv]
  · intro coll rf wf saving id body item list msg hf hb hv
    simp [listMongoDB.listGoGin.UpdateListItem, hf, hb, hv]
  · intro coll fault newID creating saving body item msg hb hv
    simp [listMongoDB.listGoFiber.CreateListItem, hb, hv]
  · intro coll rf wf saving id body item list msg hf hb hv
    simp [listMongoDB.listGoFiber.UpdateListItem, hf, hb, hv]

theorem validation_failure_writes_nothing_witness :
    listPostgreSQL.listGoGin.CreateListItem dbOne none bodyBlank
        = (⟨400, .error "List field is required"⟩, dbOne)
      ∧ listPostgreSQL.listGoGin.UpdateListItem dbOne none none idOne bodyBlank
        = (⟨400, .error "List field is required"⟩, dbOne) :=
  ⟨validation_failure_writes_nothing.1 dbOne none bodyBlank ⟨0, [0x20, 0x20, 0x20]⟩
      "List field is required" (by decide) (by decide),
    validation_failure_writes_nothing.2.1 dbOne none none idOne bodyBlank 1 ⟨1, buyMilk⟩
      [0x20, 0x20, 0x20] "List field is required" (by decide) (by decide) (by decide)
      (by decide)⟩

/-! ## Update of an id without a record -/

theorem listPostgreSQL.First_of_absent (db : listPostgreSQL.DB) (fault : Fault) (id : Nat)
    (h : ∀ r ∈ db.rows, r.ID ≠ id) : ∃ err, db.First fault id = .error err := by
  unfold listPostgreSQL.DB.First
  cases fault with
  | some e => exact ⟨e, rfl⟩
  | none =>
    have : db.rows.find? (fun r => r.ID == id) = none := by
      rw [List.find?_eq_none]
      intro r hr
      simpa using h r hr
    simp [this]

theorem listMongoDB.FindByID_of_absent (coll : listMongoDB.Collection) (fault : Fault)
    (id : GoString)
    (h : ∀ oid, listMongoDB.ObjectIDFromHex id = .ok oid → ∀ d ∈ coll.docs, d.ID ≠ oid) :
    ∃ err, coll.FindByID fault id = .error err := by
  unfold listMongoDB.Collection.FindByID
  cases hid : listMongoDB.ObjectIDFromHex id with
  | error e => exact ⟨e, rfl⟩
  | ok oid =>
    cases fault with
    | some e => exact ⟨e, rfl⟩
    | none =>
      have : coll.docs.find? (fun d => d.ID == oid) = none := by
        rw [List.find?_eq_none]
        intro d hd
        simpa using h oid hid d hd
      simp [this]

/-- C6, as stated, fails: on the empty table the id `abc` has no record, and `UpdateListItem` of
the PostgreSQL programs answers 400 "Invalid ID", not 404. -/
theorem UpdateListItem_malformed_id_is_400 :
    (∀ id, strconv.ParseUint idABC 32 ≠ .ok id)
      ∧ listPostgreSQL.listGoFiber.UpdateListItem ⟨[], 0⟩ none none idABC bodyBuyMilk
        = (⟨400, .error "Invalid ID"⟩, ⟨[], 0⟩)
      ∧ listPostgreSQL.listGoGin.UpdateListItem ⟨[], 0⟩ none none idABC bodyBuyMilk
        = (⟨400, .error "Invalid ID"⟩, ⟨[], 0⟩) := by
  refine ⟨?_, by decide, by decide⟩
  intro id h
  have : strconv.ParseUint idABC 32 = .error .invalid := by decide
  rw [this] at h
  cases h

/-- C6, amended: when the store holds no record for the id, `UpdateListItem` leaves the store as
it is and its response does not depend on the body (valid, invalid or malformed): the MongoDB
programs answer 404 "List not found", also for an id string that is no identifier; the PostgreSQL
programs answer 404 "List not found" for an id string that `ParseUint(id, 10, 32)` reads, and 400
"Invalid ID" for any other id string. -/
theorem UpdateListItem_absent_id_writes_nothing :
    (∀ (db : listPostgreSQL.DB) (readFault writeFault : Fault) (idParam : GoString)
        (body : listPostgreSQL.Body),
        (∀ id, strconv.ParseUint idParam 32 = .ok id → ∀ r ∈ db.rows, r.ID ≠ id) →
        listPostgreSQL.listGoFiber.UpdateListItem db readFault writeFault idParam body
          = (match strconv.ParseUint idParam 32 with
              | .ok _ => ⟨404, .error "List not found"⟩
              | .error _ => ⟨400, .error "Invalid ID"⟩, db))
    ∧ (∀ (db : listPostgreSQL.DB) (readFault writeFault : Fault) (idParam : GoString)
        (body : listPostgreSQL.Body),
        (∀ id, strconv.ParseUint idParam 32 = .ok id → ∀ r ∈ db.rows, r.ID ≠ id) →
        listPostgreSQL.listGoGin.UpdateListItem db readFault writeFault idParam body
          = (match strconv.ParseUint idParam 32 with
              | .ok _ => ⟨404, .error "List not found"⟩
              | .error _ => ⟨400, .error "Invalid ID"⟩, db))
    ∧ (∀ (coll : listMongoDB.Collection) (readFault writeFault : Fault) (saving : Nat)
        (id : GoString) (body : listMongoDB.Body),
        (∀ oid, listMongoDB.ObjectIDFromHex id = .ok oid → ∀ d ∈ coll.docs, d.ID ≠ oid) →
        listMongoDB.listGoFiber.UpdateListItem coll readFault writeFault saving id body
          = (⟨404, .error "List not found"⟩, coll))
    ∧ (∀ (coll : listMongoDB.Collection) (readFault writeFault : Fault) (saving : Nat)
        (id : GoString) (body : listMongoDB.Body),
        (∀ oid, listMongoDB.ObjectIDFromHex id = .ok oid → ∀ d ∈ coll.docs, d.ID ≠ oid) →
        listMongoDB.listGoGin.UpdateListItem coll readFault writeFault saving id body
          = (⟨404, .error "List not found"⟩, coll)) := by
  refine ⟨?_, ?_, ?_, ?_⟩
  · intro db rf wf idParam body h
    unfold listPostgreSQL.listGoFiber.UpdateListItem
    cases hp : strconv.ParseUint idParam 32 with
    | error e => rfl
    | ok id =>
      obtain ⟨err, herr⟩ := listPostgreSQL.First_of_absent db rf id (h id hp)
      simp [herr]
  · intro db rf wf idParam body h
    unfold listPostgreSQL.listGoGin.UpdateListItem
    cases hp : strconv.ParseUint idParam 32 with
    | error e => rfl
    | ok id =>
      obtain ⟨err, herr⟩ := listPostgreSQL.First_of_absent db rf id (h id hp)
      simp [herr]
  · intro coll rf wf saving id body h
    obtain ⟨err, herr⟩ := listMongoDB.FindByID_of_absent coll rf id h
    simp [listMongoDB.listGoFiber.UpdateListItem, herr]
  · intro coll rf wf saving id body h
    obtain ⟨err, herr⟩ := listMongoDB.FindByID_of_absent coll rf id h
    simp [listMongoDB.listGoGin.UpdateListItem, herr]

theorem UpdateListItem_absent_id_writes_nothing_witness :
    (∀ id, strconv.ParseUint idTwo 32 = .ok id → ∀ r ∈ dbOne.rows, r.ID ≠ id)
      ∧ listPostgreSQL.listGoFiber.UpdateListItem dbOne none none idTwo bodyBuyMilk
        = (⟨404, .error "List not found"⟩, dbOne)
      ∧ listMongoDB.listGoFiber.UpdateListItem ⟨[]⟩ none none 5 idABC (.malformed "EOF")
        = (⟨404, .error "List not found"⟩, ⟨[]⟩) := by
  have h : ∀ id, strconv.ParseUint idTwo 32 = .ok id → ∀ r ∈ dbOne.rows, r.ID ≠ id := by
    intro id hid r hr
    have h2 : strconv.ParseUint idTwo 32 = .ok 2 := by decide
    rw [h2] at hid
    cases hid
    simp [dbOne] at hr
    simp [hr]
  exact ⟨h, UpdateListItem_absent_id_writes_nothing.1 dbOne none none idTwo bodyBuyMilk h,
    UpdateListItem_absent_id_writes_nothing.2.2.1 ⟨[]⟩ none none 5 idABC (.malformed "EOF")
      (by intro oid _ d hd; simp at hd)⟩

/-! ## Create, then Get -/

/-- A text of at most `n` characters that the column takes is stored as it is. -/
theorem listPostgreSQL.varchar_of_short (n : Nat) (s stored : GoString)
    (h : listPostgreSQL.varchar n s = .ok stored) (hlen : utf8.RuneCountInString s ≤ n) :
    stored = s := by
  unfold listPostgreSQL.varchar at h
  by_cases hbad : (s.contains 0 ∨ utf8.ValidString s = false)
  · rw [if_pos hbad] at h
    simp at h
  · rw [if_neg hbad, if_pos hlen] at h
    simpa using h.symm

theorem listPostgreSQL.insert_ok (db db1 : listPostgreSQL.DB) (item0 item : listPostgreSQL.ListItem)
    (h : db.insert item0 = (.ok item, db1)) :
    item = item0
      ∧ (∃ stored, listPostgreSQL.varchar 200 item0.List = .ok stored
          ∧ db1 = { db with rows := db.rows ++ [{ item0 with List := stored }] })
      ∧ ∀ r ∈ db.rows, r.ID ≠ item0.ID := by
  unfold listPostgreSQL.DB.insert at h
  split at h
  · simp at h
  · split at h
    · simp at h
    · rename_i stored hstored
      split at h
      · simp at h
      · rename_i hany
        simp only [Prod.mk.injEq, Except.ok.injEq] at h
        refine ⟨h.1.symm, ⟨stored, hstored, h.2.symm⟩, ?_⟩
        intro r hr
        simp only [List.any_eq_true, not_exists, not_and] at hany
        simpa using hany r hr

/-- What a successful `DB.Create` has done. -/
theorem listPostgreSQL.DB_Create_ok (db db1 : listPostgreSQL.DB) (fault : Fault)
    (item0 item : listPostgreSQL.ListItem) (h : db.Create fault item0 = (.ok item, db1)) :
    item.ID ≠ 0 ∧ item.List = item0.List
      ∧ (∃ stored, listPostgreSQL.varchar 200 item0.List = .ok stored
          ∧ db1.rows = db.rows ++ [{ item with List := stored }])
      ∧ ∀ r ∈ db.rows, r.ID ≠ item.ID := by
  unfold listPostgreSQL.DB.Create at h
  cases fault with
  | some e => simp at h
  | none =>
    simp only at h
    split at h
    · obtain ⟨h1, ⟨stored, hs, h2⟩, h3⟩ := listPostgreSQL.insert_ok _ _ _ _ h
      subst h1 h2
      exact ⟨by simp, rfl, ⟨stored, hs, rfl⟩, h3⟩
    · rename_i hne
      obtain ⟨h1, ⟨stored, hs, h2⟩, h3⟩ := listPostgreSQL.insert_ok _ _ _ _ h
      subst h1 h2
      exact ⟨hne, rfl, ⟨stored, hs, rfl⟩, h3⟩

theorem listPostgreSQL.First_append_new (rows : List listPostgreSQL.ListItem)
    (item : listPostgreSQL.ListItem) (seq : Nat) (h : ∀ r ∈ rows, r.ID ≠ item.ID) :
    listPostgreSQL.DB.First ⟨rows ++ [item], seq⟩ none item.ID = .ok item := by
  have hnone : rows.find? (fun r => r.ID == item.ID) = none := by
    rw [List.find?_eq_none]
    intro r hr
    simpa using h r hr
  simp [listPostgreSQL.DB.First, List.find?_append, hnone]

/-- What a successful `Create` on the collection has done. -/
theorem listMongoDB.Collection_Create_ok (coll coll1 : listMongoDB.Collection) (fault : Fault)
    (newID : listMongoDB.ObjectID) (creating saving : Nat) (item0 item : listMongoDB.ListItem)
    (h : coll.Create fault newID creating saving item0 = .ok (item, coll1)) :
    item.List = item0.List ∧ item.CreatedAt = creating ∧ item.UpdatedAt = saving
      ∧ coll1.docs = coll.docs ++ [item]
      ∧ ∀ d ∈ coll.docs, d.ID ≠ item.ID := by
  unfold listMongoDB.Collection.Create at h
  cases fault with
  | some e => simp at h
  | none =>
    simp only at h
    split at h <;> split at h
    all_goals first
      | (exfalso; simp at h; done)
      | (rename_i hany
         simp only [Except.ok.injEq, Prod.mk.injEq] at h
         obtain ⟨h1, h2⟩ := h
         subst h1 h2
         refine ⟨rfl, rfl, rfl, rfl, ?_⟩
         intro d hd
         simp only [List.any_eq_true, not_exists, not_and] at hany
         simpa using hany d hd)

theorem listMongoDB.FindByID_append_new (docs : List listMongoDB.ListItem)
    (item : listMongoDB.ListItem) (h : ∀ d ∈ docs, d.ID ≠ item.ID) :
    listMongoDB.Collection.FindByID ⟨docs ++ [item]⟩ none item.ID.Hex = .ok item := by
  have hnone : docs.find? (fun d => d.ID == item.ID) = none := by
    rw [List.find?_eq_none]
    intro d hd
    simpa using h d hd
  simp [listMongoDB.Collection.FindByID, listMongoDB.ObjectIDFromHex_Hex, List.find?_append,
    hnone]

/-- C7, as stated, fails in the PostgreSQL programs.  A record created under the id `2 ^ 32`,
handed out by the sequence or taken from the body, is answered 201, and `GetListItem` with that
id answers 400 "Invalid ID".  The value `a` followed by 200 spaces is accepted and answered 201
as submitted, the column keeps 200 characters of it, and `GetListItem` returns the `a` followed
by 199 spaces. -/
theorem GetListItem_after_create_differs :
    listPostgreSQL.listGoFiber.ValidateListField buyMilk = ("", true)
      ∧ listPostgreSQL.listGoFiber.CreateListItem ⟨[], 4294967295⟩ none bodyBuyMilk
        = (⟨201, .messageData "List created successfully" ⟨4294967296, buyMilk⟩⟩,
            ⟨[⟨4294967296, buyMilk⟩], 4294967296⟩)
      ∧ listPostgreSQL.listGoFiber.CreateListItem ⟨[], 0⟩ none bodyBigID
        = (⟨201, .messageData "List created successfully" ⟨4294967296, buyMilk⟩⟩,
            ⟨[⟨4294967296, buyMilk⟩], 0⟩)
      ∧ strconv.FormatUint 4294967296 = idTwoPow32
      ∧ listPostgreSQL.listGoFiber.GetListItem ⟨[⟨4294967296, buyMilk⟩], 4294967296⟩ none
          idTwoPow32
        = (⟨400, .error "Invalid ID"⟩, ⟨[⟨4294967296, buyMilk⟩], 4294967296⟩)
      ∧ listPostgreSQL.listGoFiber.GetListItem ⟨[⟨4294967296, buyMilk⟩], 0⟩ none idTwoPow32
        = (⟨400, .error "Invalid ID"⟩, ⟨[⟨4294967296, buyMilk⟩], 0⟩)
      ∧ listPostgreSQL.listGoFiber.ValidateListField aThenSpaces = ("", true)
      ∧ listPostgreSQL.listGoFiber.CreateListItem ⟨[], 0⟩ none bodyAThenSpaces
        = (⟨201, .messageData "List created successfully" ⟨1, aThenSpaces⟩⟩,
            ⟨[⟨1, aThen199Spaces⟩], 1⟩)
      ∧ listPostgreSQL.listGoFiber.GetListItem ⟨[⟨1, aThen199Spaces⟩], 1⟩ none idOne
        = (⟨200, .record ⟨1, aThen199Spaces⟩⟩, ⟨[⟨1, aThen199Spaces⟩], 1⟩)
      ∧ aThen199Spaces ≠ aThenSpaces := by
  set_option maxRecDepth 100000 in decide

/-- C7, amended: in each of the four programs, when the body binds to a list value that
`ValidateListField` accepts and the store write succeeds, `CreateListItem` answers 201 with the
created record, whose id is not empty and whose list is the value as submitted; a following
`GetListItem` with that id, the store answering, responds 200 with the same id and list, in the
PostgreSQL programs provided the id is below `2 ^ 32` and the value has at most 200
characters. -/
theorem CreateListItem_then_GetListItem :
    (∀ (db db1 : listPostgreSQL.DB) (fault : Fault) (body : listPostgreSQL.Body)
        (item0 item : listPostgreSQL.ListItem),
        listPostgreSQL.bindListItem body = .ok item0 →
        (listPostgreSQL.listGoFiber.ValidateListField item0.List).2 = true →
        db.Create fault item0 = (.ok item, db1) →
        listPostgreSQL.listGoFiber.CreateListItem db fault body
            = (⟨201, .messageData "List created successfully" item⟩, db1)
          ∧ item.ID ≠ 0 ∧ item.List = item0.List
          ∧ (item.ID < 2 ^ 32 → utf8.RuneCountInString item0.List ≤ 200 →
              listPostgreSQL.listGoFiber.GetListItem db1 none (strconv.FormatUint item.ID)
                = (⟨200, .record item⟩, db1)))
    ∧ (∀ (db db1 : listPostgreSQL.DB) (fault : Fault) (body : listPostgreSQL.Body)
        (item0 item : listPostgreSQL.ListItem),
        listPostgreSQL.bindListItem body = .ok item0 →
        (listPostgreSQL.listGoGin.ValidateListField item0.List).2 = true →
        db.Create fault item0 = (.ok item, db1) →
        listPostgreSQL.listGoGin.CreateListItem db fault body
            = (⟨201, .messageData "List created successfully" item⟩, db1)
          ∧ item.ID ≠ 0 ∧ item.List = item0.List
          ∧ (item.ID < 2 ^ 32 → utf8.RuneCountInString item0.List ≤ 200 →
              listPostgreSQL.listGoGin.GetListItem db1 none (strconv.FormatUint item.ID)
                = (⟨200, .record item⟩, db1)))
    ∧ (∀ (coll coll1 : listMongoDB.Collection) (fault : Fault) (newID : listMongoDB.ObjectID)
        (creating saving : Nat) (body : listMongoDB.Body) (item0 item : listMongoDB.ListItem),
        listMongoDB.bindListItem body = .ok item0 →
        (listMongoDB.listGoGin.ValidateListField item0.List).2 = true →
        coll.Create fault newID creating saving item0 = .ok (item, coll1) →
        listMongoDB.listGoGin.CreateListItem coll fault newID creating saving body
            = (⟨201, .messageData "List created successfully" item⟩, coll1)
          ∧ len item.ID.Hex = 24 ∧ item.List = item0.List
          ∧ listMongoDB.listGoGin.GetListItem coll1 none item.ID.Hex
              = (⟨200, .idList item.ID.Hex item.List⟩, coll1))
    ∧ (∀ (coll coll1 : listMongoDB.Collection) (fault : Fault) (newID : listMongoDB.ObjectID)
        (creating saving : Nat) (body : listMongoDB.Body) (item0 item : listMongoDB.ListItem),
        listMongoDB.bindListItem body = .ok item0 →
        (listMongoDB.listGoFiber.ValidateListField item0.List).2 = true →
        coll.Create fault newID creating saving item0 = .ok (item, coll1) →
        listMongoDB.listGoFiber.CreateListItem coll fault newID creating saving body
            = (⟨201, .messageData "List created successfully" item⟩, coll1)
          ∧ len item.ID.Hex = 24 ∧ item.List = item0.List
          ∧ listMongoDB.listGoFiber.GetListItem coll1 none item.ID.Hex
              = (⟨200, .idList item.ID.Hex item.List⟩, coll1)) := by
  refine ⟨?_, ?_, ?_, ?_⟩
  · intro db db1 fault body item0 item hb hv hc
    obtain ⟨h1, h2, ⟨stored, hs, h3⟩, h4⟩ := listPostgreSQL.DB_Create_ok db db1 fault item0 item hc
    refine ⟨?_, h1, h2, ?_⟩
    · rcases hval : listPostgreSQL.listGoFiber.ValidateListField item0.List with ⟨msg, ok⟩
      rw [hval] at hv
      simp only at hv
      subst hv
      simp [listPostgreSQL.listGoFiber.CreateListItem, hb, hval, hc]
    · intro hlt hchars
      have hst : stored = item.List := by
        rw [h2]
        exact listPostgreSQL.varchar_of_short 200 _ _ hs hchars
      subst hst
      obtain ⟨rows1, seq1⟩ := db1
      simp only at h3
      subst h3
      simp [listPostgreSQL.listGoFiber.GetListItem, strconv.ParseUint_FormatUint _ hlt,
        listPostgreSQL.First_append_new _ _ _ h4]
  · intro db db1 fault body item0 item hb hv hc
    obtain ⟨h1, h2, ⟨stored, hs, h3⟩, h4⟩ := listPostgreSQL.DB_Create_ok db db1 fault item0 item hc
    refine ⟨?_, h1, h2, ?_⟩
    · rcases hval : listPostgreSQL.listGoGin.ValidateListField item0.List with ⟨msg, ok⟩
      rw [hval] at hv
      simp only at hv
      subst hv
      simp [listPostgreSQL.listGoGin.CreateListItem, hb, hval, hc]
    · intro hlt hchars
      have hst : stored = item.List := by
        rw [h2]
        exact listPostgreSQL.varchar_of_short 200 _ _ hs hchars
      subst hst
      obtain ⟨rows1, seq1⟩ := db1
      simp only at h3
      subst h3
      simp [listPostgreSQL.listGoGin.GetListItem, strconv.ParseUint_FormatUint _ hlt,
        listPostgreSQL.First_append_new _ _ _ h4]
  · intro coll coll1 fault newID creating saving body item0 item hb hv hc
    obtain ⟨h2, -, -, h3, h4⟩ :=
      listMongoDB.Collection_Create_ok coll coll1 fault newID creating saving item0 item hc
    refine ⟨?_, listMongoDB.len_Hex _, h2, ?_⟩
    · rcases hval : listMongoDB.listGoGin.ValidateListField item0.List with ⟨msg, ok⟩
      rw [hval] at hv
      simp only at hv
      subst hv
      simp [listMongoDB.listGoGin.CreateListItem, hb, hval, hc]
    · obtain ⟨docs1⟩ := coll1
      simp only at h3
      subst h3
      simp [listMongoDB.listGoGin.GetListItem, listMongoDB.FindByID_append_new _ _ h4]
  · intro coll coll1 fault newID creating saving body item0 item hb hv hc
    obtain ⟨h2, -, -, h3, h4⟩ :=
      listMongoDB.Collection_Create_ok coll coll1 fault newID creating saving item0 item hc
    refine ⟨?_, listMongoDB.len_Hex _, h2, ?_⟩
    · rcases hval : listMongoDB.listGoFiber.ValidateListField item0.List with ⟨msg, ok⟩
      rw [hval] at hv
      simp only at hv
      subst hv
      simp [listMongoDB.listGoFiber.CreateListItem, hb, hval, hc]
    · obtain ⟨docs1⟩ := coll1
      simp only at h3
      subst h3
      simp [listMongoDB.listGoFiber.GetListItem, listMongoDB.FindByID_append_new _ _ h4]

theorem CreateListItem_then_GetListItem_witness :
    (listPostgreSQL.listGoFiber.CreateListItem ⟨[], 0⟩ none bodyBuyMilk
        = (⟨201, .messageData "List created successfully" ⟨1, buyMilk⟩⟩, ⟨[⟨1, buyMilk⟩], 1⟩)
      ∧ listPostgreSQL.listGoFiber.GetListItem ⟨[⟨1, buyMilk⟩], 1⟩ none idOne
        = (⟨200, .record ⟨1, buyMilk⟩⟩, ⟨[⟨1, buyMilk⟩], 1⟩))
    ∧ (listMongoDB.listGoGin.CreateListItem ⟨[]⟩ none oidSample 3 4 mongoBodyBuyMilk
        = (⟨201, .messageData "List created successfully" ⟨oidSample, 3, 4, buyMilk⟩⟩,
            ⟨[⟨oidSample, 3, 4, buyMilk⟩]⟩)
      ∧ listMongoDB.listGoGin.GetListItem ⟨[⟨oidSample, 3, 4, buyMilk⟩]⟩ none oidSample.Hex
        = (⟨200, .idList oidSample.Hex buyMilk⟩, ⟨[⟨oidSample, 3, 4, buyMilk⟩]⟩)) :=
  have h1 := CreateListItem_then_GetListItem.1 ⟨[], 0⟩ ⟨[⟨1, buyMilk⟩], 1⟩ none bodyBuyMilk
    ⟨0, buyMilk⟩ ⟨1, buyMilk⟩ (by decide) (by decide) (by decide)
  have h2 := CreateListItem_then_GetListItem.2.2.1 ⟨[]⟩ ⟨[⟨oidSample, 3, 4, buyMilk⟩]⟩ none
    oidSample 3 4 mongoBodyBuyMilk ⟨listMongoDB.NilObjectID, 0, 0, buyMilk⟩
    ⟨oidSample, 3, 4, buyMilk⟩ (by decide) (by decide) (by decide)
  ⟨⟨h1.1, h1.2.2.2 (by decide) (by decide)⟩, ⟨h2.1, h2.2.2.2⟩⟩

/-! ## The id of a created record -/

/-- C8 at its failing input: on the empty table, the bodies `{"list": "Buy milk"}`,
`{"id": 7, "list": "Buy milk"}` and `{"id": true, "list": "Buy milk"}` carry the same list value
and differ in the id only; `CreateListItem` hands `DB.Create` the record `{0, "Buy milk"}` for the
first and `{7, "Buy milk"}` for the second, the stored records have the ids 1 and 7, and the third
body is answered 400.  `UpdateListItem` binds the list alone and ignores the id. -/
theorem CreateListItem_takes_id_from_body :
    listPostgreSQL.bindListItem bodyBuyMilk = .ok ⟨0, buyMilk⟩
      ∧ listPostgreSQL.bindListItem bodyWithID7 = .ok ⟨7, buyMilk⟩
      ∧ listPostgreSQL.listGoGin.CreateListItem ⟨[], 0⟩ none bodyBuyMilk
        = (⟨201, .messageData "List created successfully" ⟨1, buyMilk⟩⟩, ⟨[⟨1, buyMilk⟩], 1⟩)
      ∧ listPostgreSQL.listGoGin.CreateListItem ⟨[], 0⟩ none bodyWithID7
        = (⟨201, .messageData "List created successfully" ⟨7, buyMilk⟩⟩, ⟨[⟨7, buyMilk⟩], 0⟩)
      ∧ (listPostgreSQL.listGoGin.CreateListItem ⟨[], 0⟩ none bodyWithIDTrue).1.status = 400
      ∧ listPostgreSQL.listGoFiber.CreateListItem ⟨[], 0⟩ none bodyWithID7
        = (⟨201, .messageData "List created successfully" ⟨7, buyMilk⟩⟩, ⟨[⟨7, buyMilk⟩], 0⟩)
      ∧ listMongoDB.listGoGin.CreateListItem ⟨[]⟩ none listMongoDB.NilObjectID 3 4
          mongoBodyWithID
        = (⟨201, .messageData "List created successfully" ⟨oidSample, 3, 4, buyMilk⟩⟩,
            ⟨[⟨oidSample, 3, 4, buyMilk⟩]⟩)
      ∧ listPostgreSQL.bindUpdateData bodyWithID7 = listPostgreSQL.bindUpdateData bodyBuyMilk
      ∧ listPostgreSQL.bindUpdateData bodyWithIDTrue
        = listPostgreSQL.bindUpdateData bodyBuyMilk := by
  decide

/-! ## Delete, then Get and Delete again -/

/-- What a successful `DB.First` has found. -/
theorem listPostgreSQL.First_ok (db : listPostgreSQL.DB) (fault : Fault) (id : Nat)
    (item : listPostgreSQL.ListItem) (h : db.First fault id = .ok item) :
    fault = none ∧ item.ID = id ∧ item ∈ db.rows := by
  unfold listPostgreSQL.DB.First at h
  cases fault with
  | some e => simp at h
  | none =>
    simp only at h
    split at h
    · rename_i found hfind
      simp only [Except.ok.injEq] at h
      subst h
      refine ⟨rfl, ?_, List.mem_of_find?_eq_some hfind⟩
      simpa using List.find?_some hfind
    · simp at h

theorem listPostgreSQL.First_filter_ne (rows : List listPostgreSQL.ListItem) (seq : Nat)
    (fault : Fault) (id : Nat) :
    ∃ err, listPostgreSQL.DB.First ⟨rows.filter (fun r => r.ID != id), seq⟩ fault id
      = .error err := by
  apply listPostgreSQL.First_of_absent
  intro r hr
  simp only [List.mem_filter] at hr
  simpa using hr.2

/-- What a successful `DeleteListItem` of the PostgreSQL programs has done. -/
theorem listPostgreSQL.Delete_ok (db db1 : listPostgreSQL.DB) (fault : Fault)
    (item : listPostgreSQL.ListItem) (h : db.Delete fault item = .ok db1) :
    db1 = { db with rows := db.rows.filter fun r => r.ID != item.ID } := by
  unfold listPostgreSQL.DB.Delete at h
  split at h
  · simp at h
  · cases fault with
    | some e => simp at h
    | none => simpa using h.symm

/-- What a successful `FindByID` has found. -/
theorem listMongoDB.FindByID_ok (coll : listMongoDB.Collection) (fault : Fault) (id : GoString)
    (item : listMongoDB.ListItem) (h : coll.FindByID fault id = .ok item) :
    fault = none ∧ listMongoDB.ObjectIDFromHex id = .ok item.ID ∧ item ∈ coll.docs := by
  unfold listMongoDB.Collection.FindByID at h
  cases hid : listMongoDB.ObjectIDFromHex id with
  | error e => simp [hid] at h
  | ok oid =>
    simp only [hid] at h
    cases fault with
    | some e => simp at h
    | none =>
      simp only at h
      split at h
      · rename_i found hfind
        simp only [Except.ok.injEq] at h
        subst h
        have : found.ID = oid := by simpa using List.find?_some hfind
        exact ⟨rfl, by rw [this], List.mem_of_find?_eq_some hfind⟩
      · simp at h

/-- In a collection with unique `_id`, deleting one document with an `_id` removes every
document with that `_id`. -/
theorem listMongoDB.eraseP_eq_filter (docs : List listMongoDB.ListItem)
    (oid : listMongoDB.ObjectID) (h : (docs.map fun d => d.ID).Nodup) :
    docs.eraseP (fun d => d.ID == oid) = docs.filter (fun d => d.ID != oid) := by
  induction docs with
  | nil => rfl
  | cons d rest ih =>
    simp only [List.map_cons, List.nodup_cons, List.mem_map, not_exists, not_and] at h
    by_cases hd : d.ID = oid
    · have hrest : rest.filter (fun d => d.ID != oid) = rest := by
        rw [List.filter_eq_self]
        intro x hx
        have := h.1 x hx
        rw [hd] at this
        simpa using this
      simp [List.eraseP_cons, List.filter_cons, hd, hrest]
    · simp [List.eraseP_cons, List.filter_cons, hd, ih h.2]

/-- C9: in each of the four programs, after `DeleteListItem` of an id has answered 200 "List
deleted successfully", `GetListItem` and a second `DeleteListItem` with that id answer 404 "List
not found" and change nothing, whatever the store does, and the store is the one before without
the records of that id: every other record is as it was.  A collection has unique `_id`s. -/
theorem DeleteListItem_then_absent :
    (∀ (db db1 : listPostgreSQL.DB) (readFault writeFault : Fault) (idParam : GoString),
        listPostgreSQL.listGoGin.DeleteListItem db readFault writeFault idParam
          = (⟨200, .message "List deleted successfully"⟩, db1) →
        (∀ fault, listPostgreSQL.listGoGin.GetListItem db1 fault idParam
            = (⟨404, .error "List not found"⟩, db1))
          ∧ (∀ fault1 fault2, listPostgreSQL.listGoGin.DeleteListItem db1 fault1 fault2 idParam
            = (⟨404, .error "List not found"⟩, db1))
          ∧ ∃ id, strconv.ParseUint idParam 32 = .ok id
            ∧ db1 = { db with rows := db.rows.filter fun r => r.ID != id })
    ∧ (∀ (db db1 : listPostgreSQL.DB) (readFault writeFault : Fault) (idParam : GoString),
        listPostgreSQL.listGoFiber.DeleteListItem db readFault writeFault idParam
          = (⟨200, .message "List deleted successfully"⟩, db1) →
        (∀ fault, listPostgreSQL.listGoFiber.GetListItem db1 fault idParam
            = (⟨404, .error "List not found"⟩, db1))
          ∧ (∀ fault1 fault2, listPostgreSQL.listGoFiber.DeleteListItem db1 fault1 fault2 idParam
            = (⟨404, .error "List not found"⟩, db1))
          ∧ ∃ id, strconv.ParseUint idParam 32 = .ok id
            ∧ db1 = { db with rows := db.rows.filter fun r => r.ID != id })
    ∧ (∀ (coll coll1 : listMongoDB.Collection) (readFault writeFault : Fault) (id : GoString),
        (coll.docs.map fun d => d.ID).Nodup →
        listMongoDB.listGoGin.DeleteListItem coll readFault writeFault id
          = (⟨200, .message "List deleted successfully"⟩, coll1) →
        (∀ fault, listMongoDB.listGoGin.GetListItem coll1 fault id
            = (⟨404, .error "List not found"⟩, coll1))
          ∧ (∀ fault1 fault2, listMongoDB.listGoGin.DeleteListItem coll1 fault1 fault2 id
            = (⟨404, .error "List not found"⟩, coll1))
          ∧ ∃ oid, listMongoDB.ObjectIDFromHex id = .ok oid
            ∧ coll1.docs = coll.docs.filter fun d => d.ID != oid)
    ∧ (∀ (coll coll1 : listMongoDB.Collection) (readFault writeFault : Fault) (id : GoString),
        (coll.docs.map fun d => d.ID).Nodup →
        listMongoDB.listGoFiber.DeleteListItem coll readFault writeFault id
          = (⟨200, .message "List deleted successfully"⟩, coll1) →
        (∀ fault, listMongoDB.listGoFiber.GetListItem coll1 fault id
            = (⟨404, .error "List not found"⟩, coll1))
          ∧ (∀ fault1 fault2, listMongoDB.listGoFiber.DeleteListItem coll1 fault1 fault2 id
            = (⟨404, .error "List not found"⟩, coll1))
          ∧ ∃ oid, listMongoDB.ObjectIDFromHex id = .ok oid
            ∧ coll1.docs = coll.docs.filter fun d => d.ID != oid) := by
  refine ⟨?_, ?_, ?_, ?_⟩
  · intro db db1 rf wf idParam h
    unfold listPostgreSQL.listGoGin.DeleteListItem at h
    cases hp : strconv.ParseUint idParam 32 with
    | error e => simp [hp] at h
    | ok id =>
      cases hf : db.First rf id with
      | error e => simp [hp, hf] at h
      | ok item =>
        cases hd : db.Delete wf item with
        | error e => simp [hp, hf, hd] at h
        | ok db2 =>
          simp only [hp, hf, hd, Prod.mk.injEq, true_and] at h
          subst h
          have hdb := listPostgreSQL.Delete_ok db db2 wf item hd
          rw [(listPostgreSQL.First_ok db rf id item hf).2.1] at hdb
          subst hdb
          refine ⟨?_, ?_, id, rfl, rfl⟩
          · intro fault
            obtain ⟨err, herr⟩ := listPostgreSQL.First_filter_ne db.rows db.seq fault id
            simp [listPostgreSQL.listGoGin.GetListItem, hp, herr]
          · intro fault1 fault2
            obtain ⟨err, herr⟩ := listPostgreSQL.First_filter_ne db.rows db.seq fault1 id
            simp [listPostgreSQL.listGoGin.DeleteListItem, hp, herr]
  · intro db db1 rf wf idParam h
    unfold listPostgreSQL.listGoFiber.DeleteListItem at h
    cases hp : strconv.ParseUint idParam 32 with
    | error e => simp [hp] at h
    | ok id =>
      cases hf : db.First rf id with
      | error e => simp [hp, hf] at h
      | ok item =>
        cases hd : db.Delete wf item with
        | error e => simp [hp, hf, hd] at h
        | ok db2 =>
          simp only [hp, hf, hd, Prod.mk.injEq, true_and] at h
          subst h
          have hdb := listPostgreSQL.Delete_ok db db2 wf item hd
          rw [(listPostgreSQL.First_ok db rf id item hf).2.1] at hdb
          subst hdb
          refine ⟨?_, ?_, id, rfl, rfl⟩
          · intro fault
            obtain ⟨err, herr⟩ := listPostgreSQL.First_filter_ne db.rows db.seq fault id
            simp [listPostgreSQL.listGoFiber.GetListItem, hp, herr]
          · intro fault1 fault2
            obtain ⟨err, herr⟩ := listPostgreSQL.First_filter_ne db.rows db.seq fault1 id
            simp [listPostgreSQL.listGoFiber.DeleteListItem, hp, herr]
  · intro coll coll1 rf wf id hnd h
    unfold listMongoDB.listGoGin.DeleteListItem at h
    cases hf : coll.FindByID rf id with
    | error e => simp [hf] at h
    | ok item =>
      cases hd : coll.Delete wf item with
      | error e => simp [hf, hd] at h
      | ok coll2 =>
        simp only [hf, hd, Prod.mk.injEq, true_and] at h
        subst h
        obtain ⟨_, hid, _⟩ := listMongoDB.FindByID_ok coll rf id item hf
        have hdocs : coll2.docs = coll.docs.filter fun d => d.ID != item.ID := by
          unfold listMongoDB.Collection.Delete at hd
          cases wf with
          | some e => simp at hd
          | none =>
            simp only [Except.ok.injEq] at hd
            rw [← hd]
            exact listMongoDB.eraseP_eq_filter _ _ hnd
        have habs : ∀ fault, ∃ err, coll2.FindByID fault id = .error err := by
          intro fault
          apply listMongoDB.FindByID_of_absent
          intro oid hoid d hd
          rw [hid] at hoid
          cases hoid
          rw [hdocs, List.mem_filter] at hd
          simpa using hd.2
        refine ⟨?_, ?_, item.ID, hid, hdocs⟩
        · intro fault
          obtain ⟨err, herr⟩ := habs fault
          simp [listMongoDB.listGoGin.GetListItem, herr]
        · intro fault1 fault2
          obtain ⟨err, herr⟩ := habs fault1
          simp [listMongoDB.listGoGin.DeleteListItem, herr]
  · intro coll coll1 rf wf id hnd h
    unfold listMongoDB.listGoFiber.DeleteListItem at h
    cases hf : coll.FindByID rf id with
    | error e => simp [hf] at h
    | ok item =>
      cases hd : coll.Delete wf item with
      | error e => simp [hf, hd] at h
      | ok coll2 =>
        simp only [hf, hd, Prod.mk.injEq, true_and] at h
        subst h
        obtain ⟨_, hid, _⟩ := listMongoDB.FindByID_ok coll rf id item hf
        have hdocs : coll2.docs = coll.docs.filter fun d => d.ID != item.ID := by
          unfold listMongoDB.Collection.Delete at hd
          cases wf with
          | some e => simp at hd
          | none =>
            simp only [Except.ok.injEq] at hd
            rw [← hd]
            exact listMongoDB.eraseP_eq_filter _ _ hnd
        have habs : ∀ fault, ∃ err, coll2.FindByID fault id = .error err := by
          intro fault
          apply listMongoDB.FindByID_of_absent
          intro oid hoid d hd
          rw [hid] at hoid
          cases hoid
          rw [hdocs, List.mem_filter] at hd
          simpa using hd.2
        refine ⟨?_, ?_, item.ID, hid, hdocs⟩
        · intro fault
          obtain ⟨err, herr⟩ := habs fault
          simp [listMongoDB.listGoFiber.GetListItem, herr]
        · intro fault1 fault2
          obtain ⟨err, herr⟩ := habs fault1
          simp [listMongoDB.listGoFiber.DeleteListItem, herr]

theorem DeleteListItem_then_absent_witness :
    (listPostgreSQL.listGoGin.DeleteListItem dbTwo none none idOne
        = (⟨200, .message "List deleted successfully"⟩, ⟨[⟨2, [0x61]⟩], 2⟩)
      ∧ listPostgreSQL.listGoGin.GetListItem ⟨[⟨2, [0x61]⟩], 2⟩ none idOne
        = (⟨404, .error "List not found"⟩, ⟨[⟨2, [0x61]⟩], 2⟩))
    ∧ ((collTwo.docs.map fun d => d.ID).Nodup
      ∧ listMongoDB.listGoGin.DeleteListItem collTwo none none oidSample.Hex
        = (⟨200, .message "List deleted successfully"⟩,
            ⟨[⟨listMongoDB.NilObjectID, 2, 2, [0x61]⟩]⟩)
      ∧ listMongoDB.listGoGin.DeleteListItem ⟨[⟨listMongoDB.NilObjectID, 2, 2, [0x61]⟩]⟩ none
          none oidSample.Hex
        = (⟨404, .error "List not found"⟩, ⟨[⟨listMongoDB.NilObjectID, 2, 2, [0x61]⟩]⟩)) :=
  ⟨⟨by decide,
    (DeleteListItem_then_absent.1 dbTwo ⟨[⟨2, [0x61]⟩], 2⟩ none none idOne (by decide)).1 none⟩,
    ⟨by decide, by decide,
      (DeleteListItem_then_absent.2.2.1 collTwo ⟨[⟨listMongoDB.NilObjectID, 2, 2, [0x61]⟩]⟩
        none none oidSample.Hex (by decide) (by decide)).2.1 none none⟩⟩

/-! ## Update of the list of a record -/

theorem listPostgreSQL.map_replace_ids (rows : List listPostgreSQL.ListItem)
    (item : listPostgreSQL.ListItem) :
    (rows.map fun r => if r.ID == item.ID then item else r).map (fun r => r.ID)
      = rows.map fun r => r.ID := by
  induction rows with
  | nil => rfl
  | cons r rest ih =>
    simp only [List.map_cons, ih, List.cons.injEq, and_true]
    by_cases h : r.ID = item.ID <;> simp [h]

theorem listPostgreSQL.map_replace_others (rows : List listPostgreSQL.ListItem)
    (item : listPostgreSQL.ListItem) :
    (rows.map fun r => if r.ID == item.ID then item else r).filter (fun r => r.ID != item.ID)
      = rows.filter fun r => r.ID != item.ID := by
  induction rows with
  | nil => rfl
  | cons r rest ih =>
    have hmap : ∀ x : listPostgreSQL.ListItem,
        ((if (x.ID == item.ID) = true then item else x).ID != item.ID) = (x.ID != item.ID) := by
      intro x
      by_cases hx : x.ID = item.ID <;> simp [hx]
    simp only [List.map_cons, List.filter_cons, hmap, ih]
    by_cases h : r.ID = item.ID <;> simp [h]

theorem listPostgreSQL.find_map_replace (rows : List listPostgreSQL.ListItem)
    (item : listPostgreSQL.ListItem) (h : ∃ r ∈ rows, r.ID = item.ID) :
    (rows.map fun r => if r.ID == item.ID then item else r).find? (fun r => r.ID == item.ID)
      = some item := by
  induction rows with
  | nil => simp at h
  | cons r rest ih =>
    by_cases hr : r.ID = item.ID
    · simp [hr]
    · have hrest : ∃ r ∈ rest, r.ID = item.ID := by
        obtain ⟨x, hx, hxid⟩ := h
        rcases List.mem_cons.1 hx with rfl | hx
        · exact absurd hxid hr
        · exact ⟨x, hx, hxid⟩
      have hb : (r.ID == item.ID) = false := by simp [hr]
      rw [List.map_cons, List.find?_cons]
      simp only [hb, Bool.false_eq_true, if_false]
      exact ih hrest

/-- What a successful `DB.Save` of a record with a non-zero key that is in the table has done. -/
theorem listPostgreSQL.Save_ok (db db1 : listPostgreSQL.DB) (fault : Fault)
    (item saved : listPostgreSQL.ListItem) (hne : item.ID ≠ 0)
    (hmem : ∃ r ∈ db.rows, r.ID = item.ID) (h : db.Save fault item = (.ok saved, db1)) :
    saved = item
      ∧ ∃ stored, listPostgreSQL.varchar 200 item.List = .ok stored
        ∧ db1 = { db with rows := db.rows.map fun r =>
            if r.ID == item.ID then { item with List := stored } else r } := by
  unfold listPostgreSQL.DB.Save at h
  rw [if_neg hne] at h
  cases fault with
  | some e => simp at h
  | none =>
    have hany : (db.rows.any fun r => r.ID == item.ID) = true := by
      obtain ⟨r, hr, hrid⟩ := hmem
      simp only [List.any_eq_true]
      exact ⟨r, hr, by simp [hrid]⟩
    simp only [hany, if_true] at h
    cases hs : listPostgreSQL.varchar 200 item.List with
    | error e =>
      rw [hs] at h
      simp at h
    | ok stored =>
      rw [hs] at h
      simp only [Prod.mk.injEq, Except.ok.injEq] at h
      exact ⟨h.1.symm, stored, rfl, h.2.symm⟩

theorem listMongoDB.setOne_ids (docs : List listMongoDB.ListItem) (item : listMongoDB.ListItem) :
    (listMongoDB.setOne item docs).map (fun d => d.ID) = docs.map fun d => d.ID := by
  induction docs with
  | nil => rfl
  | cons d rest ih =>
    by_cases h : d.ID = item.ID <;> simp [listMongoDB.setOne, h, ih]

theorem listMongoDB.setOne_others (docs : List listMongoDB.ListItem)
    (item : listMongoDB.ListItem) :
    (listMongoDB.setOne item docs).filter (fun d => d.ID != item.ID)
      = docs.filter fun d => d.ID != item.ID := by
  induction docs with
  | nil => rfl
  | cons d rest ih =>
    by_cases h : d.ID = item.ID <;> simp [listMongoDB.setOne, List.filter_cons, h, ih]

theorem listMongoDB.find_setOne (docs : List listMongoDB.ListItem) (item : listMongoDB.ListItem)
    (h : ∃ d ∈ docs, d.ID = item.ID) :
    (listMongoDB.setOne item docs).find? (fun d => d.ID == item.ID) = some item := by
  induction docs with
  | nil => simp at h
  | cons d rest ih =>
    by_cases hd : d.ID = item.ID
    · simp [listMongoDB.setOne, hd]
    · have hrest : ∃ d ∈ rest, d.ID = item.ID := by
        obtain ⟨x, hx, hxid⟩ := h
        rcases List.mem_cons.1 hx with rfl | hx
        · exact absurd hxid hd
        · exact ⟨x, hx, hxid⟩
      simp [listMongoDB.setOne, hd, ih hrest]

/-- C10 at its failing inputs.  In the MongoDB programs, `UpdateListItem` at the instant 5 on a
document created and last updated at the instant 1 answers 200 and writes the document back
with `updated_at` at 5: a second field of the record has changed.  In the PostgreSQL programs
the value `a` followed by 200 spaces is accepted, `UpdateListItem` answers 200 with that value,
and the record in the table holds the `a` followed by 199 spaces. -/
theorem UpdateListItem_changes_more_than_list :
    listMongoDB.listGoGin.UpdateListItem collOne none none 5 oidSample.Hex mongoBodyA
        = (⟨200, .messageData "List updated successfully" ⟨oidSample, 1, 5, [0x61]⟩⟩,
            ⟨[⟨oidSample, 1, 5, [0x61]⟩]⟩)
      ∧ listMongoDB.listGoFiber.UpdateListItem collOne none none 5 oidSample.Hex mongoBodyA
        = (⟨200, .messageData "List updated successfully" ⟨oidSample, 1, 5, [0x61]⟩⟩,
            ⟨[⟨oidSample, 1, 5, [0x61]⟩]⟩)
      ∧ collOne.FindByID none oidSample.Hex = .ok ⟨oidSample, 1, 1, buyMilk⟩
      ∧ listPostgreSQL.listGoFiber.ValidateListField aThenSpaces = ("", true)
      ∧ listPostgreSQL.listGoFiber.UpdateListItem dbOne none none idOne bodyAThenSpaces
        = (⟨200, .messageData "List updated successfully" ⟨1, aThenSpaces⟩⟩,
            ⟨[⟨1, aThen199Spaces⟩], 1⟩)
      ∧ listPostgreSQL.listGoGin.UpdateListItem dbOne none none idOne bodyAThenSpaces
        = (⟨200, .messageData "List updated successfully" ⟨1, aThenSpaces⟩⟩,
            ⟨[⟨1, aThen199Spaces⟩], 1⟩)
      ∧ aThen199Spaces ≠ aThenSpaces := by
  set_option maxRecDepth 100000 in decide

/-- What a successful `UpdateListItem` does, in each of the four programs: when the store has
returned the record of the id, the body binds to a list value `v` that `ValidateListField`
accepts, and the handler answers 200, then the response carries the record that was read with
the list `v` (and, in the MongoDB programs, `updated_at` at the instant of the update), the store
returns for the id the record with what it has kept of `v` (in the PostgreSQL programs what the
column makes of it), the ids in the store are the ones before and every record of another id is
as it was.  The primary keys of the table are not zero. -/
theorem UpdateListItem_effect :
    (∀ (db db1 : listPostgreSQL.DB) (readFault writeFault : Fault) (idParam : GoString)
        (body : listPostgreSQL.Body) (id : Nat) (item : listPostgreSQL.ListItem) (v : GoString)
        (resp : Response listPostgreSQL.ListItem),
        (∀ r ∈ db.rows, r.ID ≠ 0) →
        strconv.ParseUint idParam 32 = .ok id → db.First readFault id = .ok item →
        listPostgreSQL.bindUpdateData body = .ok v →
        (listPostgreSQL.listGoFiber.ValidateListField v).2 = true →
        listPostgreSQL.listGoFiber.UpdateListItem db readFault writeFault idParam body
          = (resp, db1) →
        resp.status = 200 →
        item.ID = id
          ∧ resp = ⟨200, .messageData "List updated successfully" ⟨id, v⟩⟩
          ∧ (∃ stored, listPostgreSQL.varchar 200 v = .ok stored
              ∧ db1.First none id = .ok ⟨id, stored⟩)
          ∧ (db1.rows.map fun r => r.ID) = (db.rows.map fun r => r.ID)
          ∧ (db1.rows.filter fun r => r.ID != id) = (db.rows.filter fun r => r.ID != id)
          ∧ db1.seq = db.seq)
    ∧ (∀ (db db1 : listPostgreSQL.DB) (readFault writeFault : Fault) (idParam : GoString)
        (body : listPostgreSQL.Body) (id : Nat) (item : listPostgreSQL.ListItem) (v : GoString)
        (resp : Response listPostgreSQL.ListItem),
        (∀ r ∈ db.rows, r.ID ≠ 0) →
        strconv.ParseUint idParam 32 = .ok id → db.First readFault id = .ok item →
        listPostgreSQL.bindUpdateData body = .ok v →
        (listPostgreSQL.listGoGin.ValidateListField v).2 = true →
        listPostgreSQL.listGoGin.UpdateListItem db readFault writeFault idParam body
          = (resp, db1) →
        resp.status = 200 →
        item.ID = id
          ∧ resp = ⟨200, .messageData "List updated successfully" ⟨id, v⟩⟩
          ∧ (∃ stored, listPostgreSQL.varchar 200 v = .ok stored
              ∧ db1.First none id = .ok ⟨id, stored⟩)
          ∧ (db1.rows.map fun r => r.ID) = (db.rows.map fun r => r.ID)
          ∧ (db1.rows.filter fun r => r.ID != id) = (db.rows.filter fun r => r.ID != id)
          ∧ db1.seq = db.seq)
    ∧ (∀ (coll coll1 : listMongoDB.Collection) (readFault writeFault : Fault) (saving : Nat)
        (id : GoString) (body : listMongoDB.Body) (item : listMongoDB.ListItem) (v : GoString)
        (resp : Response listMongoDB.ListItem),
        coll.FindByID readFault id = .ok item →
        listMongoDB.bindUpdateData body = .ok v →
        (listMongoDB.listGoGin.ValidateListField v).2 = true →
        listMongoDB.listGoGin.UpdateListItem coll readFault writeFault saving id body
          = (resp, coll1) →
        resp.status = 200 →
        resp = ⟨200, .messageData "List updated successfully"
            ⟨item.ID, item.CreatedAt, saving, v⟩⟩
          ∧ coll1.FindByID none id = .ok ⟨item.ID, item.CreatedAt, saving, v⟩
          ∧ (coll1.docs.map fun d => d.ID) = (coll.docs.map fun d => d.ID)
          ∧ (coll1.docs.filter fun d => d.ID != item.ID)
            = (coll.docs.filter fun d => d.ID != item.ID))
    ∧ (∀ (coll coll1 : listMongoDB.Collection) (readFault writeFault : Fault) (saving : Nat)
        (id : GoString) (body : listMongoDB.Body) (item : listMongoDB.ListItem) (v : GoString)
        (resp : Response listMongoDB.ListItem),
        coll.FindByID readFault id = .ok item →
        listMongoDB.bindUpdateData body = .ok v →
        (listMongoDB.listGoFiber.ValidateListField v).2 = true →
        listMongoDB.listGoFiber.UpdateListItem coll readFault writeFault saving id body
          = (resp, coll1) →
        resp.status = 200 →
        resp = ⟨200, .messageData "List updated successfully"
            ⟨item.ID, item.CreatedAt, saving, v⟩⟩
          ∧ coll1.FindByID none id = .ok ⟨item.ID, item.CreatedAt, saving, v⟩
          ∧ (coll1.docs.map fun d => d.ID) = (coll.docs.map fun d => d.ID)
          ∧ (coll1.docs.filter fun d => d.ID != item.ID)
            = (coll.docs.filter fun d => d.ID != item.ID)) := by
  refine ⟨?_, ?_, ?_, ?_⟩
  · intro db db1 rf wf idParam body id item v resp hpos hp hf hb hv hupd hst
    obtain ⟨-, hid, hmem⟩ := listPostgreSQL.First_ok db rf id item hf
    rcases hval : listPostgreSQL.listGoFiber.ValidateListField v with ⟨msg, ok⟩
    rw [hval] at hv
    simp only at hv
    subst hv
    simp only [listPostgreSQL.listGoFiber.UpdateListItem, hp, hf, hb, hval] at hupd
    cases hs : db.Save wf { item with List := v } with
    | mk res db2 =>
      cases res with
      | error e =>
        simp only [hs, Prod.mk.injEq] at hupd
        rw [← hupd.1] at hst
        simp at hst
      | ok saved =>
        simp only [hs, Prod.mk.injEq] at hupd
        obtain ⟨hresp, hdb⟩ := hupd
        subst hresp hdb
        have hne : ({ item with List := v } : listPostgreSQL.ListItem).ID ≠ 0 := hpos item hmem
        obtain ⟨hsaved, stored, hstored, hdb2⟩ :=
          listPostgreSQL.Save_ok db db2 wf _ saved hne ⟨item, hmem, rfl⟩ hs
        subst hsaved hdb2
        subst hid
        refine ⟨rfl, rfl, ⟨stored, hstored, ?_⟩,
          listPostgreSQL.map_replace_ids db.rows ⟨item.ID, stored⟩,
          listPostgreSQL.map_replace_others db.rows ⟨item.ID, stored⟩, rfl⟩
        have := listPostgreSQL.find_map_replace db.rows ⟨item.ID, stored⟩ ⟨item, hmem, rfl⟩
        simp only [listPostgreSQL.DB.First]
        rw [this]
  · intro db db1 rf wf idParam body id item v resp hpos hp hf hb hv hupd hst
    obtain ⟨-, hid, hmem⟩ := listPostgreSQL.First_ok db rf id item hf
    rcases hval : listPostgreSQL.listGoGin.ValidateListField v with ⟨msg, ok⟩
    rw [hval] at hv
    simp only at hv
    subst hv
    simp only [listPostgreSQL.listGoGin.UpdateListItem, hp, hf, hb, hval] at hupd
    cases hs : db.Save wf { item with List := v } with
    | mk res db2 =>
      cases res with
      | error e =>
        simp only [hs, Prod.mk.injEq] at hupd
        rw [← hupd.1] at hst
        simp at hst
      | ok saved =>
        simp only [hs, Prod.mk.injEq] at hupd
        obtain ⟨hresp, hdb⟩ := hupd
        subst hresp hdb
        have hne : ({ item with List := v } : listPostgreSQL.ListItem).ID ≠ 0 := hpos item hmem
        obtain ⟨hsaved, stored, hstored, hdb2⟩ :=
          listPostgreSQL.Save_ok db db2 wf _ saved hne ⟨item, hmem, rfl⟩ hs
        subst hsaved hdb2
        subst hid
        refine ⟨rfl, rfl, ⟨stored, hstored, ?_⟩,
          listPostgreSQL.map_replace_ids db.rows ⟨item.ID, stored⟩,
          listPostgreSQL.map_replace_others db.rows ⟨item.ID, stored⟩, rfl⟩
        have := listPostgreSQL.find_map_replace db.rows ⟨item.ID, stored⟩ ⟨item, hmem, rfl⟩
        simp only [listPostgreSQL.DB.First]
        rw [this]
  · intro coll coll1 rf wf saving id body item v resp hf hb hv hupd hst
    obtain ⟨-, hid, hmem⟩ := listMongoDB.FindByID_ok coll rf id item hf
    rcases hval : listMongoDB.listGoGin.ValidateListField v with ⟨msg, ok⟩
    rw [hval] at hv
    simp only at hv
    subst hv
    simp only [listMongoDB.listGoGin.UpdateListItem, hf, hb, hval] at hupd
    cases hs : coll.Update wf saving { item with List := v } with
    | error e =>
      simp only [hs, Prod.mk.injEq] at hupd
      rw [← hupd.1] at hst
      simp at hst
    | ok res =>
      obtain ⟨saved, coll2⟩ := res
      simp only [hs, Prod.mk.injEq] at hupd
      obtain ⟨hresp, hdb⟩ := hupd
      subst hresp hdb
      have hres : saved = ⟨item.ID, item.CreatedAt, saving, v⟩
          ∧ coll2.docs = listMongoDB.setOne ⟨item.ID, item.CreatedAt, saving, v⟩ coll.docs := by
        unfold listMongoDB.Collection.Update at hs
        cases wf with
        | some e => simp at hs
        | none =>
          simp only [Except.ok.injEq, Prod.mk.injEq] at hs
          exact ⟨hs.1.symm, by rw [← hs.2]⟩
      obtain ⟨hsaved, hdocs⟩ := hres
      subst hsaved
      refine ⟨rfl, ?_, ?_, ?_⟩
      · have := listMongoDB.find_setOne coll.docs ⟨item.ID, item.CreatedAt, saving, v⟩
          ⟨item, hmem, rfl⟩
        simp only [listMongoDB.Collection.FindByID, hid, hdocs]
        rw [this]
      · rw [hdocs]
        exact listMongoDB.setOne_ids _ _
      · rw [hdocs]
        exact listMongoDB.setOne_others coll.docs ⟨item.ID, item.CreatedAt, saving, v⟩
  · intro coll coll1 rf wf saving id body item v resp hf hb hv hupd hst
    obtain ⟨-, hid, hmem⟩ := listMongoDB.FindByID_ok coll rf id item hf
    rcases hval : listMongoDB.listGoFiber.ValidateListField v with ⟨msg, ok⟩
    rw [hval] at hv
    simp only at hv
    subst hv
    simp only [listMongoDB.listGoFiber.UpdateListItem, hf, hb, hval] at hupd
    cases hs : coll.Update wf saving { item with List := v } with
    | error e =>
      simp only [hs, Prod.mk.injEq] at hupd
      rw [← hupd.1] at hst
      simp at hst
    | ok res =>
      obtain ⟨saved, coll2⟩ := res
      simp only [hs, Prod.mk.injEq] at hupd
      obtain ⟨hresp, hdb⟩ := hupd
      subst hresp hdb
      have hres : saved = ⟨item.ID, item.CreatedAt, saving, v⟩
          ∧ coll2.docs = listMongoDB.setOne ⟨item.ID, item.CreatedAt, saving, v⟩ coll.docs := by
        unfold listMongoDB.Collection.Update at hs
        cases wf with
        | some e => simp at hs
        | none =>
          simp only [Except.ok.injEq, Prod.mk.injEq] at hs
          exact ⟨hs.1.symm, by rw [← hs.2]⟩
      obtain ⟨hsaved, hdocs⟩ := hres
      subst hsaved
      refine ⟨rfl, ?_, ?_, ?_⟩
      · have := listMongoDB.find_setOne coll.docs ⟨item.ID, item.CreatedAt, saving, v⟩
          ⟨item, hmem, rfl⟩
        simp only [listMongoDB.Collection.FindByID, hid, hdocs]
        rw [this]
      · rw [hdocs]
        exact listMongoDB.setOne_ids _ _
      · rw [hdocs]
        exact listMongoDB.setOne_others coll.docs ⟨item.ID, item.CreatedAt, saving, v⟩

/-! ## The handlers keep the keys of the store in order

The two properties of a store that the theorems on `DeleteListItem` and `UpdateListItem` take
for granted hold in the empty store and are kept by every handler. -/

theorem listPostgreSQL.insert_keys (db : listPostgreSQL.DB) (item : listPostgreSQL.ListItem)
    (h : ∀ r ∈ db.rows, r.ID ≠ 0) (hitem : item.ID ≠ 0) :
    ∀ r ∈ (db.insert item).2.rows, r.ID ≠ 0 := by
  unfold listPostgreSQL.DB.insert
  split
  · exact h
  · split
    · exact h
    · split
      · exact h
      · intro r hr
        simp only [List.mem_append, List.mem_singleton] at hr
        rcases hr with hr | rfl
        · exact h r hr
        · exact hitem

theorem listPostgreSQL.Create_keys (db : listPostgreSQL.DB) (fault : Fault)
    (item : listPostgreSQL.ListItem) (h : ∀ r ∈ db.rows, r.ID ≠ 0) :
    ∀ r ∈ (db.Create fault item).2.rows, r.ID ≠ 0 := by
  unfold listPostgreSQL.DB.Create
  cases fault with
  | some e => exact h
  | none =>
    simp only
    split
    · exact listPostgreSQL.insert_keys { db with seq := db.seq + 1 } _ h (by simp)
    · rename_i hne
      exact listPostgreSQL.insert_keys db item h hne

theorem listPostgreSQL.Save_keys (db : listPostgreSQL.DB) (fault : Fault)
    (item : listPostgreSQL.ListItem) (h : ∀ r ∈ db.rows, r.ID ≠ 0) :
    ∀ r ∈ (db.Save fault item).2.rows, r.ID ≠ 0 := by
  unfold listPostgreSQL.DB.Save
  split
  · exact listPostgreSQL.Create_keys db fault item h
  · rename_i hne
    cases fault with
    | some e => exact h
    | none =>
      simp only
      split
      · split
        · exact h
        · intro r hr
          simp only [List.mem_map] at hr
          obtain ⟨x, hx, rfl⟩ := hr
          split
          · exact hne
          · exact h x hx
      · exact listPostgreSQL.insert_keys db item h hne

theorem listPostgreSQL.Delete_keys (db db1 : listPostgreSQL.DB) (fault : Fault)
    (item : listPostgreSQL.ListItem) (h : ∀ r ∈ db.rows, r.ID ≠ 0)
    (hd : db.Delete fault item = .ok db1) : ∀ r ∈ db1.rows, r.ID ≠ 0 := by
  rw [listPostgreSQL.Delete_ok db db1 fault item hd]
  intro r hr
  exact h r (List.mem_filter.1 hr).1

/-- A table without zero keys has no zero keys after any handler of the PostgreSQL programs. -/
theorem listPostgreSQL.handlers_keep_keys_nonzero (db : listPostgreSQL.DB)
    (h : ∀ r ∈ db.rows, r.ID ≠ 0) (fault fault2 : Fault) (idParam : GoString)
    (body : listPostgreSQL.Body) :
    (∀ r ∈ (listPostgreSQL.listGoGin.CreateListItem db fault body).2.rows, r.ID ≠ 0)
      ∧ (∀ r ∈ (listPostgreSQL.listGoGin.GetListItem db fault idParam).2.rows, r.ID ≠ 0)
      ∧ (∀ r ∈ (listPostgreSQL.listGoGin.UpdateListItem db fault fault2 idParam body).2.rows,
          r.ID ≠ 0)
      ∧ (∀ r ∈ (listPostgreSQL.listGoGin.DeleteListItem db fault fault2 idParam).2.rows,
          r.ID ≠ 0)
      ∧ (∀ r ∈ (listPostgreSQL.listGoFiber.CreateListItem db fault body).2.rows, r.ID ≠ 0)
      ∧ (∀ r ∈ (listPostgreSQL.listGoFiber.GetListItem db fault idParam).2.rows, r.ID ≠ 0)
      ∧ (∀ r ∈ (listPostgreSQL.listGoFiber.UpdateListItem db fault fault2 idParam body).2.rows,
          r.ID ≠ 0)
      ∧ (∀ r ∈ (listPostgreSQL.listGoFiber.DeleteListItem db fault fault2 idParam).2.rows,
          r.ID ≠ 0) := by
  have hc := fun item => listPostgreSQL.Create_keys db fault item h
  have hs := fun item => listPostgreSQL.Save_keys db fault2 item h
  have hd := fun item db1 => listPostgreSQL.Delete_keys db db1 fault2 item h
  refine ⟨?_, ?_, ?_, ?_, ?_, ?_, ?_, ?_⟩
  · unfold listPostgreSQL.listGoGin.CreateListItem
    split
    · exact h
    · split
      · exact h
      · rename_i item _ _ _ _
        split <;> rename_i heq <;> have := hc item <;> rw [heq] at this <;> exact this
  · unfold listPostgreSQL.listGoGin.GetListItem
    split
    · exact h
    · split <;> exact h
  · unfold listPostgreSQL.listGoGin.UpdateListItem
    split
    · exact h
    · split
      · exact h
      · split
        · exact h
        · split
          · exact h
          · rename_i item _ _ list _ _ _ _
            split <;> rename_i heq <;> have := hs { item with List := list } <;>
              rw [heq] at this <;> exact this
  · unfold listPostgreSQL.listGoGin.DeleteListItem
    split
    · exact h
    · split
      · exact h
      · split
        · exact h
        · rename_i heq
          exact hd _ _ heq
  · unfold listPostgreSQL.listGoFiber.CreateListItem
    split
    · exact h
    · split
      · exact h
      · rename_i item _ _ _ _
        split <;> rename_i heq <;> have := hc item <;> rw [heq] at this <;> exact this
  · unfold listPostgreSQL.listGoFiber.GetListItem
    split
    · exact h
    · split <;> exact h
  · unfold listPostgreSQL.listGoFiber.UpdateListItem
    split
    · exact h
    · split
      · exact h
      · split
        · exact h
        · split
          · exact h
          · rename_i item _ _ list _ _ _ _
            split <;> rename_i heq <;> have := hs { item with List := list } <;>
              rw [heq] at this <;> exact this
  · unfold listPostgreSQL.listGoFiber.DeleteListItem
    split
    · exact h
    · split
      · exact h
      · split
        · exact h
        · rename_i heq
          exact hd _ _ heq

theorem listMongoDB.Create_unique (coll coll1 : listMongoDB.Collection) (fault : Fault)
    (newID : listMongoDB.ObjectID) (creating saving : Nat) (item0 item : listMongoDB.ListItem)
    (h : (coll.docs.map fun d => d.ID).Nodup)
    (hc : coll.Create fault newID creating saving item0 = .ok (item, coll1)) :
    (coll1.docs.map fun d => d.ID).Nodup := by
  obtain ⟨-, -, -, hdocs, hnew⟩ :=
    listMongoDB.Collection_Create_ok coll coll1 fault newID creating saving item0 item hc
  rw [hdocs, List.map_append, List.nodup_append]
  refine ⟨h, by simp, ?_⟩
  intro a ha hb
  simp only [List.map_cons, List.map_nil, List.mem_singleton] at hb
  simp only [List.mem_map] at ha
  obtain ⟨d, hd, rfl⟩ := ha
  exact hnew d hd hb

theorem listMongoDB.Update_unique (coll coll1 : listMongoDB.Collection) (fault : Fault)
    (saving : Nat) (item item1 : listMongoDB.ListItem)
    (h : (coll.docs.map fun d => d.ID).Nodup)
    (hu : coll.Update fault saving item = .ok (item1, coll1)) :
    (coll1.docs.map fun d => d.ID).Nodup := by
  unfold listMongoDB.Collection.Update at hu
  cases fault with
  | some e => simp at hu
  | none =>
    simp only [Except.ok.injEq, Prod.mk.injEq] at hu
    rw [← hu.2]
    simp only
    rw [listMongoDB.setOne_ids]
    exact h

theorem listMongoDB.Delete_unique (coll coll1 : listMongoDB.Collection) (fault : Fault)
    (item : listMongoDB.ListItem) (h : (coll.docs.map fun d => d.ID).Nodup)
    (hd : coll.Delete fault item = .ok coll1) : (coll1.docs.map fun d => d.ID).Nodup := by
  unfold listMongoDB.Collection.Delete at hd
  cases fault with
  | some e => simp at hd
  | none =>
    simp only [Except.ok.injEq] at hd
    rw [← hd]
    exact List.Nodup.sublist (List.Sublist.map _ (List.eraseP_sublist _)) h

/-- A collection with unique `_id`s has unique `_id`s after any handler of the MongoDB
programs. -/
theorem listMongoDB.handlers_keep_keys_unique (coll : listMongoDB.Collection)
    (h : (coll.docs.map fun d => d.ID).Nodup) (fault fault2 : Fault)
    (newID : listMongoDB.ObjectID) (creating saving : Nat) (id : GoString)
    (body : listMongoDB.Body) :
    ((listMongoDB.listGoGin.CreateListItem coll fault newID creating saving body).2.docs.map
        fun d => d.ID).Nodup
      ∧ ((listMongoDB.listGoGin.GetListItem coll fault id).2.docs.map fun d => d.ID).Nodup
      ∧ ((listMongoDB.listGoGin.UpdateListItem coll fault fault2 saving id body).2.docs.map
          fun d => d.ID).Nodup
      ∧ ((listMongoDB.listGoGin.DeleteListItem coll fault fault2 id).2.docs.map
          fun d => d.ID).Nodup
      ∧ ((listMongoDB.listGoFiber.CreateListItem coll fault newID creating saving body).2.docs.map
          fun d => d.ID).Nodup
      ∧ ((listMongoDB.listGoFiber.GetListItem coll fault id).2.docs.map fun d => d.ID).Nodup
      ∧ ((listMongoDB.listGoFiber.UpdateListItem coll fault fault2 saving id body).2.docs.map
          fun d => d.ID).Nodup
      ∧ ((listMongoDB.listGoFiber.DeleteListItem coll fault fault2 id).2.docs.map
          fun d => d.ID).Nodup := by
  have hc := fun item0 item coll1 =>
    listMongoDB.Create_unique coll coll1 fault newID creating saving item0 item h
  have hu := fun item item1 coll1 =>
    listMongoDB.Update_unique coll coll1 fault2 saving item item1 h
  have hd := fun item coll1 => listMongoDB.Delete_unique coll coll1 fault2 item h
  refine ⟨?_, ?_, ?_, ?_, ?_, ?_, ?_, ?_⟩
  · unfold listMongoDB.listGoGin.CreateListItem
    split
    · exact h
    · split
      · exact h
      · split
        · exact h
        · rename_i heq
          exact hc _ _ _ heq
  · unfold listMongoDB.listGoGin.GetListItem
    split <;> exact h
  · unfold listMongoDB.listGoGin.UpdateListItem
    split
    · exact h
    · split
      · exact h
      · split
        · exact h
        · split
          · exact h
          · rename_i heq
            exact hu _ _ _ heq
  · unfold listMongoDB.listGoGin.DeleteListItem
    split
    · exact h
    · split
      · exact h
      · rename_i heq
        exact hd _ _ heq
  · unfold listMongoDB.listGoFiber.CreateListItem
    split
    · exact h
    · split
      · exact h
      · split
        · exact h
        · rename_i heq
          exact hc _ _ _ heq
  · unfold listMongoDB.listGoFiber.GetListItem
    split <;> exact h
  · unfold listMongoDB.listGoFiber.UpdateListItem
    split
    · exact h
    · split
      · exact h
      · split
        · exact h
        · split
          · exact h
          · rename_i heq
            exact hu _ _ _ heq
  · unfold listMongoDB.listGoFiber.DeleteListItem
    split
    · exact h
    · split
      · exact h
      · rename_i heq
        exact hd _ _ heq

/-! ## The loops have fuel enough

Each loop of the embedding runs on a counter that starts above the number of iterations the Go
loop can make; from that bound on, more fuel does not change the result. -/

theorem utf8.DecodeRuneInString_width_pos (s : GoString) (h : s ≠ []) :
    1 ≤ (utf8.DecodeRuneInString s).2 := by
  have hlen : ¬ len s < 1 := by
    cases s with
    | nil => exact absurd rfl h
    | cons b rest => simp [len]
  unfold utf8.DecodeRuneInString
  simp only [hlen, if_false]
  repeat' split
  all_goals simp

theorem strings.scanLeft_fuel (s : GoString) :
    ∀ fuel start, len s - start < fuel →
      strings.scanLeft s fuel start = strings.scanLeft s (fuel + 1) start := by
  intro fuel
  induction fuel with
  | zero => intro start h; omega
  | succ fuel ih =>
    intro start h
    rw [strings.scanLeft, strings.scanLeft]
    by_cases hlt : start < len s
    · simp only [hlt, if_true]
      rw [ih (start + 1) (by omega)]
    · simp only [hlt, if_false]

theorem strings.scanRight_fuel (s : GoString) (start : Nat) :
    ∀ fuel stop, stop - start < fuel →
      strings.scanRight s start fuel stop = strings.scanRight s start (fuel + 1) stop := by
  intro fuel
  induction fuel with
  | zero => intro stop h; omega
  | succ fuel ih =>
    intro stop h
    rw [strings.scanRight, strings.scanRight]
    by_cases hlt : stop > start
    · simp only [hlt, if_true]
      rw [ih (stop - 1) (by omega)]
    · simp only [hlt, if_false]

theorem strings.indexFuncFrom_fuel (s : GoString) (f : Nat → Bool) (truth : Bool) :
    ∀ fuel i, len s - i < fuel →
      strings.indexFuncFrom s f truth fuel i = strings.indexFuncFrom s f truth (fuel + 1) i := by
  intro fuel
  induction fuel with
  | zero => intro i h; omega
  | succ fuel ih =>
    intro i h
    rw [strings.indexFuncFrom, strings.indexFuncFrom]
    by_cases hlt : i < len s
    · have hne : sliceFrom s i ≠ [] := by
        intro h0
        have := congrArg List.length h0
        simp only [sliceFrom, List.length_drop, List.length_nil] at this
        simp only [len] at hlt
        omega
      have hw := utf8.DecodeRuneInString_width_pos _ hne
      simp only [hlt, if_true]
      rw [ih _ (by omega)]
    · simp only [hlt, if_false]

theorem utf8.runeCountFrom_fuel (s : GoString) :
    ∀ fuel i, len s - i < fuel →
      utf8.runeCountFrom s fuel i = utf8.runeCountFrom s (fuel + 1) i := by
  intro fuel
  induction fuel with
  | zero => intro i h; omega
  | succ fuel ih =>
    intro i h
    rw [utf8.runeCountFrom, utf8.runeCountFrom]
    by_cases hlt : i < len s
    · have hne : sliceFrom s i ≠ [] := by
        intro h0
        have := congrArg List.length h0
        simp only [sliceFrom, List.length_drop, List.length_nil] at this
        simp only [len] at hlt
        omega
      have hw := utf8.DecodeRuneInString_width_pos _ hne
      simp only [hlt, if_true]
      rw [ih _ (by omega)]
    · simp only [hlt, if_false]

theorem utf8.validFrom_fuel (s : GoString) :
    ∀ fuel i, len s - i < fuel →
      utf8.validFrom s fuel i = utf8.validFrom s (fuel + 1) i := by
  intro fuel
  induction fuel with
  | zero => intro i h; omega
  | succ fuel ih =>
    intro i h
    rw [utf8.validFrom, utf8.validFrom]
    by_cases hlt : i < len s
    · have hne : sliceFrom s i ≠ [] := by
        intro h0
        have := congrArg List.length h0
        simp only [sliceFrom, List.length_drop, List.length_nil] at this
        simp only [len] at hlt
        omega
      have hw := utf8.DecodeRuneInString_width_pos _ hne
      simp only [hlt, if_true]
      split
      · rfl
      · rw [ih _ (by omega)]
    · simp only [hlt, if_false]

theorem utf8.scanStart_fuel (s : GoString) (lim : Int) :
    ∀ (fuel : Nat) (start : Int), start - lim < fuel →
      utf8.scanStart s lim fuel start = utf8.scanStart s lim (fuel + 1) start := by
  intro fuel
  induction fuel with
  | zero =>
    intro start h
    have hlt : ¬ start ≥ lim := by
      simp only [CharP.cast_eq_zero] at h
      omega
    simp [utf8.scanStart, hlt]
  | succ fuel ih =>
    intro start h
    rw [utf8.scanStart, utf8.scanStart]
    by_cases hge : start ≥ lim
    · simp only [hge, if_true]
      rw [ih (start - 1) (by push_cast at h; omega)]
    · simp only [hge, if_false]

theorem utf8.scanStart_le (s : GoString) (lim : Int) :
    ∀ (fuel : Nat) (start : Int), utf8.scanStart s lim fuel start ≤ start := by
  intro fuel
  induction fuel with
  | zero => intro start; simp [utf8.scanStart]
  | succ fuel ih =>
    intro start
    rw [utf8.scanStart]
    split
    · split
      · exact le_refl _
      · have := ih (start - 1)
        omega
    · exact le_refl _

theorem utf8.DecodeLastRuneInString_width_pos (s : GoString) (h : s ≠ []) :
    1 ≤ (utf8.DecodeLastRuneInString s).2 := by
  have hlen : len s ≠ 0 := by
    cases s with
    | nil => exact absurd rfl h
    | cons b rest => simp [len]
  unfold utf8.DecodeLastRuneInString
  simp only [hlen, if_false]
  by_cases hr : byteAt s (len s - 1) < utf8.RuneSelf
  · simp [hr]
  · simp only [hr, if_false]
    generalize (if (len s : Int) - utf8.UTFMax < 0 then (0 : Int)
      else (len s : Int) - utf8.UTFMax) = lim
    have hle := utf8.scanStart_le s lim utf8.UTFMax (((len s - 1 : Nat) : Int) - 1)
    generalize utf8.scanStart s lim utf8.UTFMax (((len s - 1 : Nat) : Int) - 1) = st at hle ⊢
    have hcl : (if st < 0 then (0 : Int) else st).toNat < len s := by
      split <;> omega
    generalize (if st < 0 then (0 : Int) else st) = cl at hcl ⊢
    by_cases hsum : cl.toNat + (utf8.DecodeRuneInString (substr s cl.toNat (len s))).2 = len s
    · simp only [ne_eq, hsum, not_true_eq_false, if_false]
      omega
    · simp [hsum]

theorem strings.lastIndexFuncFrom_fuel (s : GoString) (f : Nat → Bool) (truth : Bool) :
    ∀ fuel i, i < fuel → i ≤ len s →
      strings.lastIndexFuncFrom s f truth fuel i
        = strings.lastIndexFuncFrom s f truth (fuel + 1) i := by
  intro fuel
  induction fuel with
  | zero => intro i h; omega
  | succ fuel ih =>
    intro i h hle
    rw [strings.lastIndexFuncFrom, strings.lastIndexFuncFrom]
    by_cases hpos : i > 0
    · have hne : substr s 0 i ≠ [] := by
        intro h0
        have := congrArg List.length h0
        simp only [substr, List.drop_zero, List.length_take, List.length_nil] at this
        simp only [len] at hle
        omega
      have hw := utf8.DecodeLastRuneInString_width_pos _ hne
      simp only [hpos, if_true]
      rw [ih _ (by omega) (by omega)]
    · simp only [hpos, if_false]

theorem strings.scanLeft_fuel_add (s : GoString) (k : Nat) :
    strings.scanLeft s (len s + 1 + k) 0 = strings.scanLeft s (len s + 1) 0 := by
  induction k with
  | zero => rfl
  | succ k ih => rw [← ih, ← Nat.add_assoc, ← strings.scanLeft_fuel s _ 0 (by omega)]

theorem strings.scanRight_fuel_add (s : GoString) (start k : Nat) :
    strings.scanRight s start (len s + 1 + k) (len s)
      = strings.scanRight s start (len s + 1) (len s) := by
  induction k with
  | zero => rfl
  | succ k ih => rw [← ih, ← Nat.add_assoc, ← strings.scanRight_fuel s start _ _ (by omega)]

theorem strings.indexFunc_fuel_add (s : GoString) (f : Nat → Bool) (truth : Bool) (k : Nat) :
    strings.indexFuncFrom s f truth (len s + 1 + k) 0 = strings.indexFunc s f truth := by
  unfold strings.indexFunc
  induction k with
  | zero => rfl
  | succ k ih => rw [← ih, ← Nat.add_assoc, ← strings.indexFuncFrom_fuel s f truth _ 0 (by omega)]

theorem strings.lastIndexFunc_fuel_add (s : GoString) (f : Nat → Bool) (truth : Bool)
    (k : Nat) :
    strings.lastIndexFuncFrom s f truth (len s + 1 + k) (len s)
      = strings.lastIndexFunc s f truth := by
  unfold strings.lastIndexFunc
  induction k with
  | zero => rfl
  | succ k ih =>
    rw [← ih, ← Nat.add_assoc,
      ← strings.lastIndexFuncFrom_fuel s f truth _ _ (by omega) (le_refl _)]

theorem utf8.RuneCountInString_fuel_add (s : GoString) (k : Nat) :
    utf8.runeCountFrom s (len s + 1 + k) 0 = utf8.RuneCountInString s := by
  unfold utf8.RuneCountInString
  induction k with
  | zero => rfl
  | succ k ih => rw [← ih, ← Nat.add_assoc, ← utf8.runeCountFrom_fuel s _ 0 (by omega)]

theorem utf8.ValidString_fuel_add (s : GoString) (k : Nat) :
    utf8.validFrom s (len s + 1 + k) 0 = utf8.ValidString s := by
  unfold utf8.ValidString
  induction k with
  | zero => rfl
  | succ k ih => rw [← ih, ← Nat.add_assoc, ← utf8.validFrom_fuel s _ 0 (by omega)]

/-- The backwards scan of `DecodeLastRuneInString` makes at most three steps. -/
theorem utf8.DecodeLastRune_scan_fuel_add (s : GoString) (k : Nat) :
    utf8.scanStart s (if (len s : Int) - utf8.UTFMax < 0 then 0 else (len s : Int) - utf8.UTFMax)
        (utf8.UTFMax + k) (((len s - 1 : Nat) : Int) - 1)
      = utf8.scanStart s
        (if (len s : Int) - utf8.UTFMax < 0 then 0 else (len s : Int) - utf8.UTFMax)
        utf8.UTFMax (((len s - 1 : Nat) : Int) - 1) := by
  induction k with
  | zero => rfl
  | succ k ih =>
    rw [← ih, ← Nat.add_assoc, ← utf8.scanStart_fuel]
    simp only [utf8.UTFMax]
    split <;> push_cast <;> omega

/-! ## What `ValidateListField` accepts -/

theorem utf8.runeCountFrom_le (s : GoString) :
    ∀ fuel i, utf8.runeCountFrom s fuel i ≤ len s - i := by
  intro fuel
  induction fuel with
  | zero => intro i; simp [utf8.runeCountFrom]
  | succ fuel ih =>
    intro i
    rw [utf8.runeCountFrom]
    by_cases hlt : i < len s
    · have hne : sliceFrom s i ≠ [] := by
        intro h0
        have := congrArg List.length h0
        simp only [sliceFrom, List.length_drop, List.length_nil] at this
        simp only [len] at hlt
        omega
      have hw := utf8.DecodeRuneInString_width_pos _ hne
      have := ih (i + (utf8.DecodeRuneInString (sliceFrom s i)).2)
      simp only [hlt, if_true]
      omega
    · simp [hlt]

/-- A string has at most as many runes as bytes. -/
theorem utf8.RuneCountInString_le_len (s : GoString) : utf8.RuneCountInString s ≤ len s := by
  have := utf8.runeCountFrom_le s (len s + 1) 0
  simpa [utf8.RuneCountInString] using this

/-- The values that the four copies of `ValidateListField` accept are those whose trimmed value
is not empty and has at most 200 bytes. -/
theorem ValidateListField_ok_iff_bytes (s : GoString) :
    ((listMongoDB.listGoFiber.ValidateListField s).2 = true
        ↔ strings.TrimSpace s ≠ [] ∧ len (strings.TrimSpace s) ≤ 200)
      ∧ ((listMongoDB.listGoGin.ValidateListField s).2 = true
        ↔ strings.TrimSpace s ≠ [] ∧ len (strings.TrimSpace s) ≤ 200)
      ∧ ((listPostgreSQL.listGoFiber.ValidateListField s).2 = true
        ↔ strings.TrimSpace s ≠ [] ∧ len (strings.TrimSpace s) ≤ 200)
      ∧ ((listPostgreSQL.listGoGin.ValidateListField s).2 = true
        ↔ strings.TrimSpace s ≠ [] ∧ len (strings.TrimSpace s) ≤ 200) := by
  simp only [listMongoDB.listGoFiber.ValidateListField, listMongoDB.listGoGin.ValidateListField,
    listPostgreSQL.listGoFiber.ValidateListField, listPostgreSQL.listGoGin.ValidateListField]
  by_cases h0 : strings.TrimSpace s = []
  · simp [h0]
  · by_cases h1 : len (strings.TrimSpace s) > 200
    · simp [h0, h1]
    · simp [h0, h1]
      omega

/-- An accepted value is not empty after trimming and has at most 200 characters: of the
equivalence of C4 this direction holds. -/
theorem ValidateListField_ok_within_200_characters (s : GoString)
    (h : (listPostgreSQL.listGoGin.ValidateListField s).2 = true) :
    strings.TrimSpace s ≠ [] ∧ utf8.RuneCountInString (strings.TrimSpace s) ≤ 200 := by
  have hb := ((ValidateListField_ok_iff_bytes s).2.2.2).1 h
  have := utf8.RuneCountInString_le_len (strings.TrimSpace s)
  exact ⟨hb.1, by omega⟩

/-! ## Strings made only of white space -/

theorem unicode.IsSpace_cases (r : Nat) (h : unicode.IsSpace r = true) :
    r ∈ [0x09, 0x0A, 0x0B, 0x0C, 0x0D, 0x20, 0x85, 0xA0, 0x1680, 0x2000, 0x2001, 0x2002, 0x2003,
      0x2004, 0x2005, 0x2006, 0x2007, 0x2008, 0x2009, 0x200A, 0x2028, 0x2029, 0x202F, 0x205F,
      0x3000] := by
  unfold unicode.IsSpace at h
  split at h
  · simp only [Bool.or_eq_true, decide_eq_true_eq] at h
    simp only [List.mem_cons, List.mem_singleton]
    omega
  · simp only [Bool.or_eq_true, Bool.and_eq_true, decide_eq_true_eq] at h
    simp only [List.mem_cons, List.mem_singleton]
    omega

theorem utf8.space_cases (r : Nat) (h : unicode.IsSpace r = true) :
    r = 0x09 ∨ r = 0x0A ∨ r = 0x0B ∨ r = 0x0C ∨ r = 0x0D ∨ r = 0x20 ∨ r = 0x85 ∨ r = 0xA0
      ∨ r = 0x1680 ∨ r = 0x2000 ∨ r = 0x2001 ∨ r = 0x2002 ∨ r = 0x2003 ∨ r = 0x2004
      ∨ r = 0x2005 ∨ r = 0x2006 ∨ r = 0x2007 ∨ r = 0x2008 ∨ r = 0x2009 ∨ r = 0x200A
      ∨ r = 0x2028 ∨ r = 0x2029 ∨ r = 0x202F ∨ r = 0x205F ∨ r = 0x3000 := by
  simpa using unicode.IsSpace_cases r h

/-- The encoding of a white-space rune, followed by anything, decodes to that rune. -/
theorem utf8.DecodeRuneInString_space (r : Nat) (h : unicode.IsSpace r = true)
    (tail : GoString) :
    utf8.DecodeRuneInString (utf8.EncodeRune r ++ tail) = (r, len (utf8.EncodeRune r)) := by
  rcases utf8.space_cases r h with
    rfl | rfl | rfl | rfl | rfl | rfl | rfl | rfl | rfl | rfl | rfl | rfl | rfl | rfl | rfl
      | rfl | rfl | rfl | rfl | rfl | rfl | rfl | rfl | rfl | rfl
  all_goals
    simp [utf8.EncodeRune, utf8.DecodeRuneInString, len, byteAt, utf8.first, utf8.acceptRanges,
      utf8.RuneError, UInt8.size]

/-- The encoding of a white-space rune is either one ASCII space byte or starts with a byte that
is not ASCII. -/
theorem utf8.EncodeRune_space (r : Nat) (h : unicode.IsSpace r = true) :
    utf8.EncodeRune r ≠ []
      ∧ ((len (utf8.EncodeRune r) = 1 ∧ byteAt (utf8.EncodeRune r) 0 < utf8.RuneSelf
          ∧ strings.asciiSpace (byteAt (utf8.EncodeRune r) 0) = true)
        ∨ byteAt (utf8.EncodeRune r) 0 ≥ utf8.RuneSelf) := by
  rcases utf8.space_cases r h with
    rfl | rfl | rfl | rfl | rfl | rfl | rfl | rfl | rfl | rfl | rfl | rfl | rfl | rfl | rfl
      | rfl | rfl | rfl | rfl | rfl | rfl | rfl | rfl | rfl | rfl
  all_goals decide

theorem sliceFrom_append_left (pre s : GoString) : sliceFrom (pre ++ s) (len pre) = s := by
  simp [sliceFrom, len]

theorem strings.indexFuncFrom_spaces (runes : List Nat)
    (h : ∀ r ∈ runes, unicode.IsSpace r = true) :
    ∀ (fuel : Nat) (pre : GoString),
      strings.indexFuncFrom (pre ++ utf8.encode runes) unicode.IsSpace false fuel (len pre)
        = -1 := by
  induction runes with
  | nil =>
    intro fuel pre
    cases fuel with
    | zero => rfl
    | succ fuel => simp [strings.indexFuncFrom, utf8.encode, len]
  | cons r rest ih =>
    intro fuel pre
    cases fuel with
    | zero => rfl
    | succ fuel =>
      have hr : unicode.IsSpace r = true := h r (List.mem_cons_self _ _)
      have hrest : ∀ x ∈ rest, unicode.IsSpace x = true :=
        fun x hx => h x (List.mem_cons_of_mem _ hx)
      have henc : utf8.encode (r :: rest) = utf8.EncodeRune r ++ utf8.encode rest := by
        simp [utf8.encode]
      have hne := (utf8.EncodeRune_space r hr).1
      have hlt : len pre < len (pre ++ (utf8.EncodeRune r ++ utf8.encode rest)) := by
        have : 0 < (utf8.EncodeRune r).length := List.length_pos.2 hne
        simp only [len, List.length_append]
        omega
      rw [henc, strings.indexFuncFrom, if_pos hlt, sliceFrom_append_left,
        utf8.DecodeRuneInString_space r hr]
      simp only [hr, Bool.true_eq_false, if_false]
      have := ih hrest fuel (pre ++ utf8.EncodeRune r)
      simp only [len, List.length_append, List.append_assoc] at this ⊢
      exact this

theorem strings.TrimFunc_spaces (runes : List Nat)
    (h : ∀ r ∈ runes, unicode.IsSpace r = true) :
    strings.TrimFunc (utf8.encode runes) unicode.IsSpace = [] := by
  have hidx : strings.indexFunc (utf8.encode runes) unicode.IsSpace false = -1 := by
    have := strings.indexFuncFrom_spaces runes h (len (utf8.encode runes) + 1) []
    simpa [strings.indexFunc, len] using this
  have hleft : strings.TrimLeftFunc (utf8.encode runes) unicode.IsSpace = [] := by
    simp [strings.TrimLeftFunc, hidx]
  rw [strings.TrimFunc, hleft]
  decide

theorem strings.scanLeft_spaces (runes : List Nat)
    (h : ∀ r ∈ runes, unicode.IsSpace r = true) :
    ∀ (fuel : Nat) (pre : GoString), len (utf8.encode runes) < fuel →
      strings.scanLeft (pre ++ utf8.encode runes) fuel (len pre)
          = .stop (len (pre ++ utf8.encode runes))
        ∨ ∃ (pre1 : GoString) (rest : List Nat),
            pre ++ utf8.encode runes = pre1 ++ utf8.encode rest
              ∧ (∀ r ∈ rest, unicode.IsSpace r = true)
              ∧ strings.scanLeft (pre ++ utf8.encode runes) fuel (len pre)
                = .nonASCII (len pre1) := by
  induction runes with
  | nil =>
    intro fuel pre hfuel
    left
    cases fuel with
    | zero => simp at hfuel
    | succ fuel => simp [strings.scanLeft, utf8.encode, len]
  | cons r rest ih =>
    intro fuel pre hfuel
    have hr : unicode.IsSpace r = true := h r (List.mem_cons_self _ _)
    have hrest : ∀ x ∈ rest, unicode.IsSpace x = true :=
      fun x hx => h x (List.mem_cons_of_mem _ hx)
    have henc : utf8.encode (r :: rest) = utf8.EncodeRune r ++ utf8.encode rest := by
      simp [utf8.encode]
    obtain ⟨hne, hcase⟩ := utf8.EncodeRune_space r hr
    have hpos : 0 < (utf8.EncodeRune r).length := List.length_pos.2 hne
    cases fuel with
    | zero => simp at hfuel
    | succ fuel =>
      have hlt : len pre < len (pre ++ utf8.encode (r :: rest)) := by
        simp only [henc, len, List.length_append]
        omega
      have hbyte : byteAt (pre ++ utf8.encode (r :: rest)) (len pre)
          = byteAt (utf8.EncodeRune r) 0 := by
        simp only [byteAt, henc, len, List.getD_eq_getElem?_getD]
        rw [List.getElem?_append_right (le_refl _), Nat.sub_self,
          List.getElem?_append_left hpos]
      rw [strings.scanLeft]
      simp only [hlt, if_true, hbyte]
      rcases hcase with ⟨hone, hascii, hsp⟩ | hnon
      · have hnot : ¬ byteAt (utf8.EncodeRune r) 0 ≥ utf8.RuneSelf := by omega
        simp only [hnot, if_false, hsp, Bool.true_eq_false]
        have hfuel2 : len (utf8.encode rest) < fuel := by
          simp only [henc, len, List.length_append] at hfuel hone ⊢
          omega
        have := ih hrest fuel (pre ++ utf8.EncodeRune r) hfuel2
        have hlen : len (pre ++ utf8.EncodeRune r) = len pre + 1 := by
          simp only [len, List.length_append] at hone ⊢
          omega
        rw [hlen] at this
        simp only [henc, ← List.append_assoc]
        exact this
      · right
        refine ⟨pre, r :: rest, rfl, h, ?_⟩
        simp only [hnon, if_true]

/-- A string made only of white space, the encoding of runes that `unicode.IsSpace` accepts, is
trimmed to the empty string. -/
theorem strings.TrimSpace_spaces (runes : List Nat)
    (h : ∀ r ∈ runes, unicode.IsSpace r = true) :
    strings.TrimSpace (utf8.encode runes) = [] := by
  have hscan := strings.scanLeft_spaces runes h (len (utf8.encode runes) + 1) [] (by omega)
  simp only [List.nil_append] at hscan
  have hzero : len ([] : GoString) = 0 := rfl
  rw [hzero] at hscan
  unfold strings.TrimSpace
  rcases hscan with hstop | ⟨pre1, rest, hsplit, hrest, hnon⟩
  · rw [hstop]
    simp only
    have : strings.scanRight (utf8.encode runes) (len (utf8.encode runes))
        (len (utf8.encode runes) + 1) (len (utf8.encode runes))
        = .stop (len (utf8.encode runes)) := by
      simp [strings.scanRight]
    rw [this]
    simp [substr, len]
  · rw [hnon]
    simp only
    rw [hsplit, sliceFrom_append_left]
    exact strings.TrimFunc_spaces rest hrest

/-- A list value made only of white space is answered "List field is required" by each of the
four copies of `ValidateListField`. -/
theorem ValidateListField_rejects_white_space (runes : List Nat)
    (h : ∀ r ∈ runes, unicode.IsSpace r = true) :
    listMongoDB.listGoFiber.ValidateListField (utf8.encode runes)
        = ("List field is required", false)
      ∧ listMongoDB.listGoGin.ValidateListField (utf8.encode runes)
        = ("List field is required", false)
      ∧ listPostgreSQL.listGoFiber.ValidateListField (utf8.encode runes)
        = ("List field is required", false)
      ∧ listPostgreSQL.listGoGin.ValidateListField (utf8.encode runes)
        = ("List field is required", false) := by
  simp [listMongoDB.listGoFiber.ValidateListField, listMongoDB.listGoGin.ValidateListField,
    listPostgreSQL.listGoFiber.ValidateListField, listPostgreSQL.listGoGin.ValidateListField,
    strings.TrimSpace_spaces runes h]

/-! ## One validation rule in four programs -/

/-- C11: the four copies of `ValidateListField` (Fiber/MongoDB, Gin/MongoDB, Fiber/PostgreSQL,
Gin/PostgreSQL) return the same (message, ok) pair on every input string. -/
theorem ValidateListField_same_in_four_programs (s : GoString) :
    listMongoDB.listGoFiber.ValidateListField s = listMongoDB.listGoGin.ValidateListField s
      ∧ listMongoDB.listGoGin.ValidateListField s
        = listPostgreSQL.listGoFiber.ValidateListField s
      ∧ listPostgreSQL.listGoFiber.ValidateListField s
        = listPostgreSQL.listGoGin.ValidateListField s
      ∧ listPostgreSQL.listGoGin.ValidateListField s
        = listMongoDB.listGoFiber.ValidateListField s := by
  simp only [listMongoDB.listGoFiber.ValidateListField, listMongoDB.listGoGin.ValidateListField,
    listPostgreSQL.listGoFiber.ValidateListField, listPostgreSQL.listGoGin.ValidateListField,
    and_self]
